import Mathlib

/-!
# Verification of the transactional execution and batching subsystem

Shallow embedding of `src/db_operations.py` (the transactional executor
`execute_transaction`, the bulk-insert engine `bulk_insert_optimized`, the
prepared-statement cache `prepare_statement` / `execute_prepared` /
`close_prepared`, and the batch query runner `execute_batch_queries`).

Modelling conventions:
* SQL parameter values are modelled as integers (`Val`); a record (a Python
  dict row) is an association list of column name to value.
* The SQLite engine itself is an external collaborator: it is an abstract
  `Engine σ` whose `exec` runs one SQL statement with bound parameters on a
  database state `σ`, returning either an error message (a raised
  `sqlite3.Error`) or a new state plus cursor output.  Transaction-control
  SQL smuggled through a raw statement (e.g. a literal `COMMIT` string) is
  outside this engine model; engine statements act on the data state only.
* A `Conn σ` models one `sqlite3.Connection` in the library's default
  (legacy, non-autocommit) isolation mode: DML statements implicitly open a
  transaction when none is open, `commit` publishes the pending state,
  `rollback` and `close` discard it.  The connection records an event log of
  the explicit calls the repository code makes (BEGIN / statement / commit /
  rollback / close), which lets ordering and single-commit claims be stated.
* Wall-clock fields (`execution_time_ms`), logging, and the random
  `transaction_id` UUID are diagnostic-only and are not modelled.
-/

/-- A bound SQL parameter value. -/
abbrev Val := Int

/-- One record (Python dict row): association list of column name to value.
Python dict keys are unique; callers construct records with distinct keys. -/
abbrev Record := List (String × Val)

/-- Cursor output of one statement: `cursor.rowcount`, and for reads the
column names and fetched rows. -/
structure EngineOut where
  rowcount : Int
  columns : List String
  rows : List (List Val)
  deriving Repr, DecidableEq

/-- The external SQLite engine: executes one SQL text with parameters on a
database state, returning an error (raised exception message) or the new
state and cursor output. -/
structure Engine (σ : Type) where
  exec : σ → String → List Val → Except String (σ × EngineOut)

/-- Events the repository code issues on a connection. -/
inductive Ev where
  | beginTx
  | commitTx
  | rollbackTx
  | closeC
  | stmt (sql : String) (params : List Val)
  deriving Repr, DecidableEq

/-- One `sqlite3.Connection`: the durable (committed) database state, the
pending in-transaction state when a transaction is open, and the log of
explicit calls made on it. -/
structure Conn (σ : Type) where
  committed : σ
  pending : Option σ
  log : List Ev
  deriving Repr, DecidableEq

/-- Python `str.upper` on one character (ASCII, which covers the SQL
keywords being compared). -/
def pyCharUpper (c : Char) : Char :=
  if c.isLower then Char.ofNat (c.toNat - 32) else c

/-- Python `str.startswith`: prefix test on the character list. -/
def pyStartsWith (s pre : String) : Bool := pre.data.isPrefixOf s.data

/-- Python `str.upper`. -/
def pyUpper (s : String) : String := ⟨s.data.map pyCharUpper⟩

/-- ASCII whitespace (what `str.strip` removes in the SQL texts here). -/
def pyIsSpace (c : Char) : Bool := c = ' ' || c = '\t' || c = '\n' || c = '\r'

/-- Python `str.lstrip`. -/
def pyLStrip (s : String) : String := ⟨s.data.dropWhile pyIsSpace⟩

/-- Python `str.strip`. -/
def pyStrip (s : String) : String :=
  ⟨((s.data.dropWhile pyIsSpace).reverse.dropWhile pyIsSpace).reverse⟩

/-- Python's sqlite3 module (legacy isolation mode) implicitly opens a
transaction before a DML statement: leading keyword INSERT / UPDATE /
DELETE / REPLACE, case-insensitively. -/
def sqliteIsDML (sql : String) : Bool :=
  let q := pyUpper (pyLStrip sql)
  ["INSERT", "UPDATE", "DELETE", "REPLACE"].any (fun c => pyStartsWith q c)

/-- The repository's own "is this SQL modifying" heuristic:
`sql.strip().upper().startswith(cmd)` over UPDATE / DELETE / INSERT /
ALTER / DROP / CREATE. -/
def isModifying (sql : String) : Bool :=
  let q := pyUpper (pyStrip sql)
  ["UPDATE", "DELETE", "INSERT", "ALTER", "DROP", "CREATE"].any
    (fun c => pyStartsWith q c)

/-- `conn.execute("BEGIN")`: fails inside an open transaction, otherwise
opens one whose working state starts from the committed state. -/
def Conn.execBegin (c : Conn σ) : Except String (Conn σ) :=
  match c.pending with
  | some _ => .error "cannot start a transaction within a transaction"
  | none =>
      .ok { committed := c.committed, pending := some c.committed,
            log := c.log ++ [Ev.beginTx] }

/-- `conn.execute(sql, params)` / `cursor.execute(sql, params)` on a regular
statement.  The statement runs on the pending state if a transaction is
open, else on the committed state; a DML statement implicitly opens a
transaction (legacy isolation mode); a non-DML statement outside a
transaction applies in autocommit mode.  A raised engine error leaves the
connection unchanged. -/
def Conn.execStmt (E : Engine σ) (c : Conn σ) (sql : String) (ps : List Val) :
    Except String (Conn σ × EngineOut) :=
  match E.exec (c.pending.getD c.committed) sql ps with
  | .error e => .error e
  | .ok (s', out) =>
      if sqliteIsDML sql then
        .ok ({ committed := c.committed, pending := some s',
               log := c.log ++ [Ev.stmt sql ps] }, out)
      else
        match c.pending with
        | some _ =>
            .ok ({ committed := c.committed, pending := some s',
                   log := c.log ++ [Ev.stmt sql ps] }, out)
        | none =>
            .ok ({ committed := s', pending := none,
                   log := c.log ++ [Ev.stmt sql ps] }, out)

/-- `conn.commit()`: publishes the pending state (no-op when no transaction
is open). -/
def Conn.commit (c : Conn σ) : Conn σ :=
  { committed := c.pending.getD c.committed, pending := none,
    log := c.log ++ [Ev.commitTx] }

/-- `conn.rollback()`: discards the pending state. -/
def Conn.rollback (c : Conn σ) : Conn σ :=
  { committed := c.committed, pending := none, log := c.log ++ [Ev.rollbackTx] }

/-- `conn.close()`: an open (uncommitted) transaction is implicitly rolled
back — pending changes are lost. -/
def Conn.close (c : Conn σ) : Conn σ :=
  { committed := c.committed, pending := none, log := c.log ++ [Ev.closeC] }

/-- Python truthiness of an optional string field (`op.get(k)`;
`if not v:` treats `None` and `""` as falsy). -/
def strTruthy : Option String → Option String
  | none => none
  | some s => if s = "" then none else some s

/-- Python `str.endswith`: suffix test on the character list. -/
def pyEndsWith (s suffix : String) : Bool :=
  suffix.data.isSuffixOf s.data

/-- `_get_db_path`: append the `.db` extension when missing and resolve
inside the fixed storage directory. -/
def getDbPath (database_name : String) : String :=
  if pyEndsWith database_name ".db" then "databases/" ++ database_name
  else "databases/" ++ (database_name ++ ".db")

/-- `[record[col] for col in columns]`: a missing key raises `KeyError`. -/
def getVals (r : Record) : List String → Except String (List Val)
  | [] => .ok []
  | col :: cols =>
    match r.lookup col with
    | none => .error ("KeyError: " ++ col)
    | some v =>
      match getVals r cols with
      | .error e => .error e
      | .ok vs => .ok (v :: vs)

/-- The parameterized INSERT statement text built by the repository:
`INSERT INTO {table} ({c1, …}) VALUES (?, …)`. -/
def insertSqlFor (table : String) (cols : List String) : String :=
  "INSERT INTO " ++ table ++ " (" ++ String.intercalate ", " cols ++
    ") VALUES (" ++ String.intercalate ", " (cols.map (fun _ => "?")) ++ ")"

/-- `sql.count("?")`: the positional-placeholder count. -/
def countParams (sql : String) : Nat := sql.data.count '?'

/-- A concrete toy engine used for witnesses: the state is a bare list of
inserted parameter tuples; an insert of any negative value violates a
constraint; a statement starting with `FAIL` raises; any other non-DML
statement is a read returning the rows. -/
def toyExec (s : List (List Val)) (sql : String) (ps : List Val) :
    Except String (List (List Val) × EngineOut) :=
  if ps.any (fun v => v < 0) then .error "constraint violation"
  else if sqliteIsDML sql then .ok (s ++ [ps], ⟨1, [], []⟩)
  else if pyStartsWith sql "FAIL" then .error "no such table"
  else .ok (s, ⟨-1, ["c"], s⟩)

/-- The toy engine packaged. -/
def toyEngine : Engine (List (List Val)) := ⟨toyExec⟩

/-! ## `execute_transaction` (src/db_operations.py, lines 1184–1376) -/

/-- One operation dict passed to `execute_transaction`: optional fields as
fetched by `op.get(...)`.  A Python dict `data` payload is normalized by the
source to a one-element list, so the model takes the list form directly. -/
structure Operation where
  type? : Option String
  sql? : Option String
  params : List Val
  tableName? : Option String
  data? : Option (List Record)
  deriving Repr

/-- Python truthiness of the `data` payload: `None`, `[]` (and the empty
dict, which cannot reach normalization) are falsy; a truthy payload is
split into its first record and the rest. -/
def listTruthy : Option (List Record) → Option (Record × List Record)
  | some (r :: rs) => some (r, rs)
  | _ => none

/-- The per-operation `result` payload. -/
inductive ResultData where
  | affectedRows (n : Int)
  | readRows (columns : List String) (rows : List Record) (rowCount : Nat)
  | rowsInserted (n : Nat)
  deriving Repr, DecidableEq

/-- One entry of the transaction's `results` list. -/
structure OpResult where
  operation_index : Nat
  status : String
  result : Option ResultData
  error : Option String
  deriving Repr, DecidableEq

/-- The dict returned by `execute_transaction` (the diagnostic
`transaction_id` UUID is not modelled). -/
structure TxResult where
  status : String
  operations_executed : Nat
  results : List OpResult
  rollback_performed : Bool
  error_message : Option String
  deriving Repr

/-- The inner loop of the `insert` operation branch:
`for row in data: conn.execute(insert_sql, values); rows_inserted += 1`. -/
def insertLoop (E : Engine σ) (sql : String) (cols : List String) :
    List Record → Conn σ → Nat → Except String (Conn σ × Nat)
  | [], c, n => .ok (c, n)
  | r :: rs, c, n =>
    match getVals r cols with
    | .error e => .error e
    | .ok vs =>
      match Conn.execStmt E c sql vs with
      | .error e => .error e
      | .ok (c', _) => insertLoop E sql cols rs c' (n + 1)

/-- The body of one operation dispatch (the inner `try` block of the loop in
`execute_transaction`), for an operation whose `type` field is truthy. -/
def execOpBody (E : Engine σ) (c : Conn σ) (i : Nat) (opType : String)
    (op : Operation) : Except String (Conn σ × ResultData) :=
  if opType = "query" then
    match strTruthy op.sql? with
    | none =>
        .error ("Operation " ++ toString i ++ ": 'sql' field required for type 'query'")
    | some sql =>
      match Conn.execStmt E c sql op.params with
      | .error e => .error e
      | .ok (c', out) =>
        if isModifying sql then .ok (c', .affectedRows out.rowcount)
        else
          .ok (c', .readRows out.columns (out.rows.map (fun r => out.columns.zip r))
                 out.rows.length)
  else if opType = "insert" then
    match strTruthy op.tableName? with
    | none =>
        .error ("Operation " ++ toString i ++ ": 'table_name' required for type 'insert'")
    | some table =>
      match listTruthy op.data? with
      | none =>
          .error ("Operation " ++ toString i ++ ": 'data' required for type 'insert'")
      | some (d0, ds) =>
        let cols := d0.map Prod.fst
        let sql := insertSqlFor table cols
        match insertLoop E sql cols (d0 :: ds) c 0 with
        | .error e => .error e
        | .ok (c', n) => .ok (c', .rowsInserted n)
  else if opType = "update" ∨ opType = "delete" then
    match strTruthy op.sql? with
    | none =>
        .error ("Operation " ++ toString i ++ ": 'sql' field required for type '" ++
          opType ++ "'")
    | some sql =>
      match Conn.execStmt E c sql op.params with
      | .error e => .error e
      | .ok (c', out) => .ok (c', .affectedRows out.rowcount)
  else
    .error ("Operation " ++ toString i ++ ": invalid type '" ++ opType ++
      "'. Must be one of: query, insert, update, delete")

/-- Outcome of the operation loop: all operations done, or aborted at the
first raised exception. -/
inductive TxLoopOut (σ : Type) where
  | done (c : Conn σ) (results : List OpResult) (executed : Nat)
  | failed (c : Conn σ) (results : List OpResult) (executed : Nat) (err : String)

/-- The `for i, op in enumerate(operations)` loop.  A missing/falsy `type`
field raises *outside* the inner `try`, so no failure entry is appended for
it; any exception from the operation body is recorded as a failure entry
and re-raised. -/
def txLoop (E : Engine σ) : Conn σ → Nat → List Operation → List OpResult →
    Nat → TxLoopOut σ
  | c, _, [], results, executed => .done c results executed
  | c, i, op :: rest, results, executed =>
    match strTruthy op.type? with
    | none =>
        .failed c results executed ("Operation " ++ toString i ++ ": missing 'type' field")
    | some opType =>
      match execOpBody E c i opType op with
      | .error e =>
          .failed c (results ++ [⟨i, "failed", none, some e⟩]) executed e
      | .ok (c', rd) =>
          txLoop E c' (i + 1) rest (results ++ [⟨i, "success", some rd, none⟩])
            (executed + 1)

/-- `execute_transaction(database_name, operations, isolation_level)`.
`fs` is the set of existing database files (paths), `store` the durable
state of each file.  `.error` models a raised exception; `.ok` carries the
returned dict together with the connection after `conn.close()` (whose
`committed` component is the caller-visible database state after the
call). -/
def execute_transaction (E : Engine σ) (fs : List String) (store : String → σ)
    (database_name : String) (operations : List Operation)
    (isolation_level : String) : Except String (TxResult × Conn σ) :=
  let db_path := getDbPath database_name
  if ¬ fs.contains db_path then
    .error ("Database '" ++ database_name ++ "' not found")
  else if ¬ (isolation_level = "DEFERRED" ∨ isolation_level = "IMMEDIATE" ∨
      isolation_level = "EXCLUSIVE") then
    .error ("Invalid isolation_level: " ++ isolation_level ++
      ". Must be one of: DEFERRED, IMMEDIATE, EXCLUSIVE")
  else if operations.isEmpty then
    .error "operations must be a non-empty list"
  else
    let c0 : Conn σ := { committed := store db_path, pending := none, log := [] }
    match c0.execBegin with
    | .error e =>
        .ok ({ status := "failed", operations_executed := 0, results := [],
               rollback_performed := true, error_message := some e },
             (c0.rollback).close)
    | .ok c1 =>
      match txLoop E c1 0 operations [] 0 with
      | .done c2 results executed =>
          .ok ({ status := "success", operations_executed := executed,
                 results := results, rollback_performed := false,
                 error_message := none }, (c2.commit).close)
      | .failed c2 results executed e =>
          .ok ({ status := "failed", operations_executed := executed,
                 results := results, rollback_performed := true,
                 error_message := some e }, (c2.rollback).close)

/-! ## `bulk_insert_optimized` (src/db_operations.py, lines 1379–1561) -/

/-- One entry of the bulk-insert `errors` list. -/
structure ErrEntry where
  record_index : Nat
  error_message : String
  deriving Repr, DecidableEq

/-- The dict returned by `bulk_insert_optimized` (`execution_time_ms` is
wall clock and not modelled). -/
structure BulkResult where
  status : String
  total_records : Nat
  inserted_records : Nat
  failed_records : Nat
  batches_processed : Nat
  errors : List ErrEntry
  deriving Repr

/-- Error-list cap (`MAX_ERROR_DETAILS = 50`). -/
def MAX_ERROR_DETAILS : Nat := 50

/-- Key sets of two records compared as sets
(`set(record.keys()) != expected_columns`). -/
def sameKeySet (a b : List String) : Bool :=
  a.all (fun k => b.contains k) && b.all (fun k => a.contains k)

/-- The pre-insertion shape validation: index of the first record whose key
set differs from the first record's, if any. -/
def shapeMismatchFrom (cols : List String) : Nat → List Record → Option Nat
  | _, [] => none
  | i, r :: rs =>
    if sameKeySet (r.map Prod.fst) cols then shapeMismatchFrom cols (i + 1) rs
    else some i

/-- `for record in batch: cursor.execute(insert_sql, values)` inside the
batch `try`: on the first raised error, returns the connection as it stands
(partial statements already staged in the open transaction). -/
def insertRows (E : Engine σ) (sql : String) (cols : List String) :
    List Record → Conn σ → Conn σ × Option String
  | [], c => (c, none)
  | r :: rs, c =>
    match getVals r cols with
    | .error e => (c, some e)
    | .ok vs =>
      match Conn.execStmt E c sql vs with
      | .error e => (c, some e)
      | .ok (c', _) => insertRows E sql cols rs c'

/-- One batch attempt (the outer `try`/`except` of the batch loop): BEGIN
when `use_transaction`, insert every record of the batch, commit when
`use_transaction`.  On any raised error the except-branch rolls back (when
`use_transaction`) and reports `batch_inserted = false`. -/
def tryBatch (E : Engine σ) (ut : Bool) (sql : String) (cols : List String)
    (batch : List Record) (c : Conn σ) : Conn σ × Bool :=
  let attempt : Conn σ × Option String :=
    if ut then
      match c.execBegin with
      | .error e => (c, some e)
      | .ok c1 => insertRows E sql cols batch c1
    else insertRows E sql cols batch c
  match attempt with
  | (c', none) => (if ut then c'.commit else c', true)
  | (c', some _) => (if ut then c'.rollback else c', false)

/-- The per-record fallback `try` body: BEGIN (tracking `transaction_open`),
execute, commit.  Returns the connection plus, on a raised error, the error
message and the `transaction_open` flag at the raise point. -/
def fallbackAttempt (E : Engine σ) (ut : Bool) (sql : String)
    (cols : List String) (r : Record) (c : Conn σ) :
    Conn σ × Option (String × Bool) :=
  if ut then
    match c.execBegin with
    | .error e => (c, some (e, false))
    | .ok c1 =>
      match getVals r cols with
      | .error e => (c1, some (e, true))
      | .ok vs =>
        match Conn.execStmt E c1 sql vs with
        | .error e => (c1, some (e, true))
        | .ok (c2, _) => (c2.commit, none)
  else
    match getVals r cols with
    | .error e => (c, some (e, false))
    | .ok vs =>
      match Conn.execStmt E c sql vs with
      | .error e => (c, some (e, false))
      | .ok (c2, _) => (c2, none)

/-- One record of the fallback pass: the `try`/`except`/`finally` of the
per-record loop.  A failure is recorded (capped at `MAX_ERROR_DETAILS`)
with the record's absolute index; the `finally` issues `conn.commit()` when
`use_transaction` is false. -/
def fallbackRecord (E : Engine σ) (ut : Bool) (sql : String)
    (cols : List String) (r : Record) (ridx : Nat) (c : Conn σ) (ins : Nat)
    (errs : List ErrEntry) : Conn σ × Nat × List ErrEntry :=
  match fallbackAttempt E ut sql cols r c with
  | (c', none) =>
      (if ut then c' else c'.commit, ins + 1, errs)
  | (c', some (e, topen)) =>
      let c1 := if ut && topen then c'.rollback else c'
      let errs' :=
        if errs.length < MAX_ERROR_DETAILS then errs ++ [⟨ridx, e⟩] else errs
      (if ut then c1 else c1.commit, ins, errs')

/-- The fallback pass over one failed batch, tracking absolute record
indices. -/
def fallbackBatch (E : Engine σ) (ut : Bool) (sql : String)
    (cols : List String) : List Record → Nat → Conn σ → Nat → List ErrEntry →
    Conn σ × Nat × List ErrEntry
  | [], _, c, ins, errs => (c, ins, errs)
  | r :: rs, ridx, c, ins, errs =>
    match fallbackRecord E ut sql cols r ridx c ins errs with
    | (c', ins', errs') => fallbackBatch E ut sql cols rs (ridx + 1) c' ins' errs'

/-- The batch loop `for batch_start in range(0, total_records, batch_size)`.
`bs1 + 1` is the (positive) batch size.  Returns the connection, the
inserted count, the error list, and `batches_processed`.  Each iteration
consumes at least one record, so the loop runs at most `records.length`
iterations; the structural `fuel` argument bounds that iteration count and
is always called with `records.length` (see `bulk_insert_optimized`), which
the loop never exhausts — `bulkBatches_spec` needs only
`rem.length ≤ fuel`. -/
def bulkBatches (E : Engine σ) (ut : Bool) (sql : String) (cols : List String)
    (bs1 : Nat) : Nat → List Record → Nat → Conn σ → Nat → List ErrEntry →
    Nat → Conn σ × Nat × List ErrEntry × Nat
  | _, [], _, c, ins, errs, bp => (c, ins, errs, bp)
  | 0, _ :: _, _, c, ins, errs, bp => (c, ins, errs, bp)
  | fuel + 1, r :: rem, batchStart, c, ins, errs, bp =>
    let batch := (r :: rem).take (bs1 + 1)
    match tryBatch E ut sql cols batch c with
    | (c', true) =>
        bulkBatches E ut sql cols bs1 fuel ((r :: rem).drop (bs1 + 1))
          (batchStart + batch.length) c' (ins + batch.length) errs (bp + 1)
    | (c', false) =>
      match fallbackBatch E ut sql cols batch batchStart c' ins errs with
      | (c'', ins', errs') =>
          bulkBatches E ut sql cols bs1 fuel ((r :: rem).drop (bs1 + 1))
            (batchStart + batch.length) c'' ins' errs' (bp + 1)

/-- `bulk_insert_optimized(database_name, table_name, records, batch_size,
use_transaction)`.  `.error` models a raised exception before any insertion
attempt; `.ok` carries the returned dict and the connection after
`conn.close()`. -/
def bulk_insert_optimized (E : Engine σ) (fs : List String)
    (store : String → σ) (database_name table_name : String)
    (records : List Record) (batch_size : Nat) (use_transaction : Bool) :
    Except String (BulkResult × Conn σ) :=
  let db_path := getDbPath database_name
  if ¬ fs.contains db_path then
    .error ("Database '" ++ database_name ++ "' not found")
  else
    match records with
    | [] => .error "records must be a non-empty list"
    | r0 :: rest =>
      match batch_size with
      | 0 => .error "batch_size must be greater than 0"
      | bs1 + 1 =>
        let cols := r0.map Prod.fst
        if cols.isEmpty then .error "Records must contain at least one column"
        else
          match shapeMismatchFrom cols 0 (r0 :: rest) with
          | some idx =>
              .error ("Record at index " ++ toString idx ++
                " does not match the expected columns")
          | none =>
            let sql := insertSqlFor table_name cols
            let c0 : Conn σ :=
              { committed := store db_path, pending := none, log := [] }
            match bulkBatches E use_transaction sql cols bs1
                (r0 :: rest).length (r0 :: rest) 0 c0 0 [] 0 with
            | (c1, inserted, errs, batches) =>
              let total := (r0 :: rest).length
              let failed := total - inserted
              let status :=
                if failed = 0 then "success"
                else if inserted > 0 then "partial_success"
                else "failed"
              .ok ({ status := status, total_records := total,
                     inserted_records := inserted, failed_records := failed,
                     batches_processed := batches, errors := errs }, c1.close)

/-! ## Prepared statement cache (src/db_operations.py, lines 1564–1750) -/

/-- One cached prepared-statement session (`_prepared_statements[id]`):
a dedicated open connection, the resolved file path, the SQL text, and the
database name given at prepare time. -/
structure StmtInfo (σ : Type) where
  conn : Conn σ
  db_path : String
  sql : String
  database_name : String

/-- The process-wide `_prepared_statements` registry, as a finite map from
statement id to session. -/
def Cache (σ : Type) := String → Option (StmtInfo σ)

/-- The dict returned by `prepare_statement`. -/
structure PrepResult where
  statement_id : String
  parameter_count : Nat
  database_name : String
  sql : String
  deriving Repr, DecidableEq

/-- `prepare_statement(database_name, statement_id, sql)`.  Error results
leave the registry untouched (a raised exception). -/
def prepare_statement (fs : List String) (store : String → σ)
    (cache : Cache σ) (database_name statement_id sql : String) :
    Except String PrepResult × Cache σ :=
  let db_path := getDbPath database_name
  if ¬ fs.contains db_path then
    (.error ("Database '" ++ database_name ++ "' not found"), cache)
  else if (cache statement_id).isSome then
    (.error ("Statement ID '" ++ statement_id ++ "' already exists. " ++
      "Use a different ID or close the existing statement first."), cache)
  else if sql = "" then
    (.error "sql must be a non-empty string", cache)
  else
    let info : StmtInfo σ :=
      { conn := { committed := store db_path, pending := none, log := [] },
        db_path := db_path, sql := sql, database_name := database_name }
    (.ok { statement_id := statement_id, parameter_count := countParams sql,
           database_name := database_name, sql := sql },
     fun x => if x = statement_id then some info else cache x)

/-- `execute_prepared` success payload: modifying statements report the
affected-row count, reads report columns/rows/row count. -/
inductive ExecPrepOut where
  | modified (affected_rows : Int)
  | readRows (columns : List String) (rows : List Record) (row_count : Nat)
  deriving Repr, DecidableEq

/-- `execute_prepared(database_name, statement_id, params)`.  Validation
failures raise before any statement touches the session's connection; an
engine failure during execution rolls the session's connection back but
keeps the session cached. -/
def execute_prepared (E : Engine σ) (cache : Cache σ)
    (database_name statement_id : String) (params : List Val) :
    Except String ExecPrepOut × Cache σ :=
  match cache statement_id with
  | none =>
      (.error ("Statement ID '" ++ statement_id ++ "' not found. " ++
        "Use prepare_statement first."), cache)
  | some info =>
    if info.database_name ≠ database_name then
      (.error ("Database mismatch: statement was prepared for '" ++
        info.database_name ++ "', but execution requested for '" ++
        database_name ++ "'"), cache)
    else if params.length ≠ countParams info.sql then
      (.error ("Parameter count mismatch: expected " ++
        toString (countParams info.sql) ++ ", got " ++
        toString params.length), cache)
    else
      match Conn.execStmt E info.conn info.sql params with
      | .error e =>
          (.error ("Execution failed: " ++ e),
           fun x => if x = statement_id then
             some { info with conn := info.conn.rollback } else cache x)
      | .ok (c', out) =>
        if isModifying info.sql then
          (.ok (.modified out.rowcount),
           fun x => if x = statement_id then
             some { info with conn := c'.commit } else cache x)
        else
          (.ok (.readRows out.columns
              (out.rows.map (fun r => out.columns.zip r)) out.rows.length),
           fun x => if x = statement_id then
             some { info with conn := c' } else cache x)

/-- The dict returned by `close_prepared`. -/
structure CloseResult where
  statement_id : String
  message : String
  deriving Repr, DecidableEq

/-- `close_prepared(database_name, statement_id)`: closes the session's
connection and removes the id from the registry. -/
def close_prepared (cache : Cache σ) (database_name statement_id : String) :
    Except String CloseResult × Cache σ :=
  match cache statement_id with
  | none =>
      (.error ("Statement ID '" ++ statement_id ++ "' not found"), cache)
  | some info =>
    if info.database_name ≠ database_name then
      (.error ("Database mismatch: statement was prepared for '" ++
        info.database_name ++ "', but close requested for '" ++
        database_name ++ "'"), cache)
    else
      (.ok { statement_id := statement_id,
             message := "Prepared statement '" ++ statement_id ++
               "' closed successfully" },
       fun x => if x = statement_id then none else cache x)

/-! ## `execute_batch_queries` (src/db_operations.py, lines 1753–1890) -/

/-- One query dict of a batch: `query_id`, `sql`, and `params`
(defaulting to `[]`). -/
structure Query where
  query_id? : Option String
  sql? : Option String
  params : List Val
  deriving Repr

/-- One entry of the per-query-id `results` map. -/
structure QEntry where
  status : String
  data : Option ResultData
  error : Option String
  deriving Repr, DecidableEq

/-- `results[query_id] = entry` on the (insertion-ordered) dict: replace in
place when the key exists, else append. -/
def dictSet (m : List (String × QEntry)) (k : String) (v : QEntry) :
    List (String × QEntry) :=
  if m.any (fun e => e.1 = k) then
    m.map (fun e => if e.1 = k then (k, v) else e)
  else m ++ [(k, v)]

/-- The dict returned by `execute_batch_queries` (`execution_time_ms` not
modelled). -/
structure BatchResult where
  status : String
  results : List (String × QEntry)
  total_queries : Nat
  successful_queries : Nat
  failed_queries : Nat
  deriving Repr

/-- The `for query_spec in queries` loop.  A falsy `query_id` raises out of
the whole call; a falsy `sql` or a raised engine error is recorded as a
failure entry, stopping iteration when `fail_fast`. -/
def batchLoop (E : Engine σ) (failFast : Bool) :
    List Query → Conn σ → List (String × QEntry) → Nat → Nat →
    Except String (Conn σ × List (String × QEntry) × Nat × Nat)
  | [], c, res, s, f => .ok (c, res, s, f)
  | q :: qs, c, res, s, f =>
    match strTruthy q.query_id? with
    | none => .error "Each query must have a 'query_id' field"
    | some qid =>
      match strTruthy q.sql? with
      | none =>
        let res' := dictSet res qid ⟨"failed", none, some "Missing 'sql' field"⟩
        if failFast then .ok (c, res', s, f + 1)
        else batchLoop E failFast qs c res' s (f + 1)
      | some sql =>
        match Conn.execStmt E c sql q.params with
        | .error e =>
          let res' := dictSet res qid ⟨"failed", none, some e⟩
          if failFast then .ok (c, res', s, f + 1)
          else batchLoop E failFast qs c res' s (f + 1)
        | .ok (c', out) =>
          if isModifying sql then
            batchLoop E failFast qs c'.commit
              (dictSet res qid ⟨"success", some (.affectedRows out.rowcount), none⟩)
              (s + 1) f
          else
            batchLoop E failFast qs c'
              (dictSet res qid
                ⟨"success",
                 some (.readRows out.columns
                   (out.rows.map (fun r => out.columns.zip r)) out.rows.length),
                 none⟩)
              (s + 1) f

/-- `execute_batch_queries(database_name, queries, fail_fast)`. -/
def execute_batch_queries (E : Engine σ) (fs : List String)
    (store : String → σ) (database_name : String) (queries : List Query)
    (fail_fast : Bool) : Except String (BatchResult × Conn σ) :=
  let db_path := getDbPath database_name
  if ¬ fs.contains db_path then
    .error ("Database '" ++ database_name ++ "' not found")
  else if queries.isEmpty then
    .error "queries must be a non-empty list"
  else
    let c0 : Conn σ := { committed := store db_path, pending := none, log := [] }
    match batchLoop E fail_fast queries c0 [] 0 0 with
    | .error e => .error e
    | .ok (c1, res, s, f) =>
      let status :=
        if f = 0 then "success"
        else if s > 0 then "partial_success"
        else "failed"
      .ok ({ status := status, results := res, total_queries := queries.length,
             successful_queries := s, failed_queries := f }, c1.close)

/-! ## Lemmas about the transaction executor -/

/-- The parameter values an operation binds for a record: the lookup of each
column (all present on any successful path). -/
def traceVals (cols : List String) (r : Record) : List Val :=
  cols.map (fun col => (r.lookup col).getD 0)

/-- The statement events a successfully executed operation issues, in
order, computable from the operation alone. -/
def opTrace (op : Operation) : List Ev :=
  match strTruthy op.type? with
  | none => []
  | some t =>
    if t = "query" then
      match strTruthy op.sql? with
      | none => []
      | some sql => [Ev.stmt sql op.params]
    else if t = "insert" then
      match strTruthy op.tableName?, listTruthy op.data? with
      | some table, some (d0, ds) =>
          (d0 :: ds).map (fun r =>
            Ev.stmt (insertSqlFor table (d0.map Prod.fst))
              (traceVals (d0.map Prod.fst) r))
      | _, _ => []
    else if t = "update" ∨ t = "delete" then
      match strTruthy op.sql? with
      | none => []
      | some sql => [Ev.stmt sql op.params]
    else []

/-- `results` entries at consecutive indices `i, i+1, …`, all successful. -/
def okEntriesFrom : Nat → List OpResult → Bool
  | _, [] => true
  | i, e :: es =>
    decide (e.operation_index = i) && decide (e.status = "success") &&
      decide (e.error = none) && okEntriesFrom (i + 1) es


lemma getVals_ok {r : Record} :
    ∀ {cols : List String} {vs : List Val},
    getVals r cols = .ok vs → vs = traceVals cols r := by
  intro cols
  induction cols with
  | nil => intro vs h; simp [getVals] at h; simp [traceVals, ← h]
  | cons col cols ih =>
    intro vs h
    simp only [getVals] at h
    split at h
    · exact absurd h (by simp)
    · rename_i v hl
      split at h
      · exact absurd h (by simp)
      · rename_i vs' hg
        simp only [Except.ok.injEq] at h
        subst h
        simp [traceVals, hl, ih hg]

lemma Conn.execStmt_ok {E : Engine σ} {c c' : Conn σ} {sql : String}
    {ps : List Val} {out : EngineOut} (hp : c.pending.isSome)
    (h : Conn.execStmt E c sql ps = .ok (c', out)) :
    c'.committed = c.committed ∧ c'.pending.isSome ∧
      c'.log = c.log ++ [Ev.stmt sql ps] := by
  unfold Conn.execStmt at h
  split at h
  · exact absurd h (by simp)
  · rename_i s' o hE
    split at h
    · simp only [Except.ok.injEq, Prod.mk.injEq] at h
      rcases h with ⟨h1, _⟩
      subst h1; simp
    · split at h
      · simp only [Except.ok.injEq, Prod.mk.injEq] at h
        rcases h with ⟨h1, _⟩
        subst h1; simp
      · rename_i hpe
        rw [hpe] at hp; simp at hp

lemma insertLoop_ok {E : Engine σ} {sql : String} {cols : List String} :
    ∀ {rows : List Record} {c c' : Conn σ} {n n' : Nat},
    c.pending.isSome → insertLoop E sql cols rows c n = .ok (c', n') →
    c'.committed = c.committed ∧ c'.pending.isSome ∧
      c'.log = c.log ++ rows.map (fun r => Ev.stmt sql (traceVals cols r)) ∧
      n' = n + rows.length := by
  intro rows
  induction rows with
  | nil =>
    intro c c' n n' hp h
    simp only [insertLoop, Except.ok.injEq, Prod.mk.injEq] at h
    rcases h with ⟨h1, h2⟩
    subst h1; subst h2; simp [hp]
  | cons r rs ih =>
    intro c c' n n' hp h
    simp only [insertLoop] at h
    split at h
    · exact absurd h (by simp)
    · rename_i vs hg
      split at h
      · exact absurd h (by simp)
      · rename_i c1 o hs
        obtain ⟨hc1, hp1, hl1⟩ := Conn.execStmt_ok hp hs
        obtain ⟨hc2, hp2, hl2, hn2⟩ := ih hp1 h
        refine ⟨hc2.trans hc1, hp2, ?_, by simp; omega⟩
        rw [hl2, hl1, getVals_ok hg]
        simp

lemma execOpBody_ok {E : Engine σ} {c c' : Conn σ} {i : Nat} {t : String}
    {op : Operation} {rd : ResultData}
    (hp : c.pending.isSome) (ht : strTruthy op.type? = some t)
    (h : execOpBody E c i t op = .ok (c', rd)) :
    c'.committed = c.committed ∧ c'.pending.isSome ∧
      c'.log = c.log ++ opTrace op := by
  unfold execOpBody at h
  unfold opTrace
  rw [ht]
  split at h
  · rename_i hq
    simp only [hq, if_true]
    split at h
    · exact absurd h (by simp)
    · rename_i sql hsq
      split at h
      · exact absurd h (by simp)
      · rename_i c1 o hs
        obtain ⟨hc1, hp1, hl1⟩ := Conn.execStmt_ok hp hs
        split at h <;>
        · simp only [Except.ok.injEq, Prod.mk.injEq] at h
          rcases h with ⟨h1, _⟩
          subst h1
          exact ⟨hc1, hp1, hl1⟩
  · split at h
    · rename_i hq hi
      simp only [hq, hi, if_true, if_false]
      split at h
      · exact absurd h (by simp)
      · rename_i table htb
        split at h
        · exact absurd h (by simp)
        · rename_i p d0 ds hdt
          simp only at h
          split at h
          · exact absurd h (by simp)
          · rename_i c1 m hil
            obtain ⟨hc1, hp1, hl1, _⟩ := insertLoop_ok hp hil
            simp only [Except.ok.injEq, Prod.mk.injEq] at h
            rcases h with ⟨h1, _⟩
            subst h1
            refine ⟨hc1, hp1, ?_⟩
            rw [hl1]
            simp [htb, hdt]
    · split at h
      · rename_i hq hi hu
        simp only [hq, hi, hu, if_true, if_false]
        split at h
        · exact absurd h (by simp)
        · rename_i sql hsq
          split at h
          · exact absurd h (by simp)
          · rename_i c1 o hs
            obtain ⟨hc1, hp1, hl1⟩ := Conn.execStmt_ok hp hs
            simp only [Except.ok.injEq, Prod.mk.injEq] at h
            rcases h with ⟨h1, _⟩
            subst h1
            exact ⟨hc1, hp1, hl1⟩
      · exact absurd h (by simp)

lemma txLoop_done {E : Engine σ} :
    ∀ {ops : List Operation} {c c' : Conn σ} {i : Nat}
      {res res' : List OpResult} {n n' : Nat},
    txLoop E c i ops res n = .done c' res' n' → c.pending.isSome →
    c'.committed = c.committed ∧
      c'.log = c.log ++ (ops.map opTrace).flatten ∧
      n' = n + ops.length ∧
      ∃ tail, res' = res ++ tail ∧ tail.length = ops.length ∧
        okEntriesFrom i tail = true := by
  intro ops
  induction ops with
  | nil =>
    intro c c' i res res' n n' h hp
    simp only [txLoop, TxLoopOut.done.injEq] at h
    rcases h with ⟨h1, h2, h3⟩
    subst h1; subst h2; subst h3
    exact ⟨rfl, by simp, by simp, [], by simp, rfl, rfl⟩
  | cons op rest ih =>
    intro c c' i res res' n n' h hp
    simp only [txLoop] at h
    split at h
    · exact absurd h (by simp)
    · rename_i t ht
      split at h
      · exact absurd h (by simp)
      · rename_i c1 rd hb
        obtain ⟨hc1, hp1, hl1⟩ := execOpBody_ok hp ht hb
        obtain ⟨hc2, hl2, hn2, tail, hres, htl, hok⟩ := ih h hp1
        refine ⟨hc2.trans hc1, ?_, by simp [hn2]; omega,
          ⟨i, "success", some rd, none⟩ :: tail, by simp [hres], by simp [htl],
          ?_⟩
        · rw [hl2, hl1]; simp
        · simp [okEntriesFrom, hok]

lemma txLoop_failed {E : Engine σ} :
    ∀ {ops : List Operation} {c c' : Conn σ} {i : Nat}
      {res res' : List OpResult} {n n' : Nat} {err : String},
    txLoop E c i ops res n = .failed c' res' n' err → c.pending.isSome →
    c'.committed = c.committed ∧
      ∃ (j : Nat) (hj : j < ops.length) (tail : List OpResult),
        n' = n + j ∧ tail.length = j ∧ okEntriesFrom i tail = true ∧
        ((strTruthy ops[j].type? = none ∧ res' = res ++ tail) ∨
         (strTruthy ops[j].type? ≠ none ∧
          res' = res ++ tail ++ [⟨i + j, "failed", none, some err⟩])) := by
  intro ops
  induction ops with
  | nil =>
    intro c c' i res res' n n' err h hp
    simp [txLoop] at h
  | cons op rest ih =>
    intro c c' i res res' n n' err h hp
    simp only [txLoop] at h
    split at h
    · rename_i ht
      simp only [TxLoopOut.failed.injEq] at h
      rcases h with ⟨h1, h2, h3, _⟩
      subst h1; subst h2; subst h3
      exact ⟨rfl, 0, by simp, [], by simp, rfl, rfl, Or.inl ⟨ht, by simp⟩⟩
    · rename_i t ht
      split at h
      · rename_i e hb
        simp only [TxLoopOut.failed.injEq] at h
        rcases h with ⟨h1, h2, h3, h4⟩
        subst h1; subst h2; subst h3; subst h4
        exact ⟨rfl, 0, by simp, [], by simp, rfl, rfl,
          Or.inr ⟨by simp [ht], by simp⟩⟩
      · rename_i c1 rd hb
        obtain ⟨hc1, hp1, hl1⟩ := execOpBody_ok hp ht hb
        obtain ⟨hc2, j, hj, tail, hn2, htl, hok, hcase⟩ := ih h hp1
        refine ⟨hc2.trans hc1, j + 1, by simpa using hj,
          ⟨i, "success", some rd, none⟩ :: tail, ?_, by simp [htl], ?_, ?_⟩
        · omega
        · simp [okEntriesFrom, hok]
        · rcases hcase with ⟨hnone, hres⟩ | ⟨hsome, hres⟩
          · exact Or.inl ⟨by simpa using hnone, by simp [hres]⟩
          · refine Or.inr ⟨by simpa using hsome, ?_⟩
            have hidx : i + 1 + j = i + (j + 1) := by omega
            rw [hres, hidx]
            simp

lemma opTrace_stmts (op : Operation) :
    ∀ e ∈ opTrace op, ∃ sql ps, e = Ev.stmt sql ps := by
  intro e he
  unfold opTrace at he
  rcases ht : strTruthy op.type? with _ | t <;> rw [ht] at he
  · simp at he
  · simp only at he
    split at he
    · rcases hsq : strTruthy op.sql? with _ | sql <;> rw [hsq] at he
      · simp at he
      · simp at he; exact ⟨sql, op.params, he⟩
    · split at he
      · rcases htb : strTruthy op.tableName? with _ | table <;> rw [htb] at he
        · simp at he
        · rcases hdt : listTruthy op.data? with _ | ⟨d0, ds⟩ <;> rw [hdt] at he
          · simp at he
          · simp only [List.map_cons, List.mem_cons, List.mem_map] at he
            rcases he with he | ⟨r, _, hr⟩
            · exact ⟨_, _, he⟩
            · exact ⟨_, _, hr.symm⟩
      · split at he
        · rcases hsq : strTruthy op.sql? with _ | sql <;> rw [hsq] at he
          · simp at he
          · simp at he; exact ⟨sql, op.params, he⟩
        · simp at he

lemma commitTx_not_mem_opTrace_flatten (ops : List Operation) :
    Ev.commitTx ∉ (ops.map opTrace).flatten := by
  intro h
  rw [List.mem_flatten] at h
  obtain ⟨l, hl, hm⟩ := h
  rw [List.mem_map] at hl
  obtain ⟨op, _, rfl⟩ := hl
  obtain ⟨sql, ps, he⟩ := opTrace_stmts op _ hm
  simp at he

/-- C2.  When every operation of an `execute_transaction` call succeeds (the
operation loop runs to completion), the call returns status `"success"`,
`rollback_performed = false`, `operations_executed` equal to the number of
operations, and one successful per-operation result per operation indexed in
input order; the connection log shows the operations' statements issued in
exactly the caller-supplied order between the single `BEGIN` and a single
final `commit`. -/
theorem execute_transaction_success_spec {σ : Type} (E : Engine σ)
    (fs : List String) (store : String → σ) (dbName : String)
    (ops : List Operation) (iso : String)
    {c2 : Conn σ} {rs : List OpResult} {k : Nat}
    (hfs : fs.contains (getDbPath dbName) = true)
    (hiso : iso = "DEFERRED" ∨ iso = "IMMEDIATE" ∨ iso = "EXCLUSIVE")
    (hne : ops ≠ [])
    (hrun : txLoop E ⟨store (getDbPath dbName),
        some (store (getDbPath dbName)), [Ev.beginTx]⟩
        0 ops [] 0 = .done c2 rs k) :
    ∃ R cF, execute_transaction E fs store dbName ops iso = .ok (R, cF) ∧
      R.status = "success" ∧ R.rollback_performed = false ∧
      R.operations_executed = ops.length ∧
      R.results.length = ops.length ∧ okEntriesFrom 0 R.results = true ∧
      cF.log = Ev.beginTx :: ((ops.map opTrace).flatten ++ [Ev.commitTx, Ev.closeC]) ∧
      cF.log.count Ev.commitTx = 1 := by
  have hie : ops.isEmpty = false := by
    cases ops with
    | nil => exact absurd rfl hne
    | cons a l => rfl
  obtain ⟨hc2, hl2, hk, tail, hres, htl, hok⟩ := txLoop_done hrun rfl
  unfold execute_transaction
  rw [if_neg (by simpa using hfs), if_neg (not_not_intro hiso),
    if_neg (by simp [hie])]
  simp only [Conn.execBegin, List.nil_append]
  rw [hrun]
  refine ⟨_, _, rfl, rfl, rfl, by simpa using hk, ?_, ?_, ?_, ?_⟩
  · simp only [hres, List.nil_append, htl]
  · simpa [hres] using hok
  · simp [Conn.commit, Conn.close, hl2]
  · simp [Conn.commit, Conn.close, hl2,
      List.count_eq_zero.mpr (commitTx_not_mem_opTrace_flatten ops),
      List.count_cons, List.count_append]

/-- C1 (amended).  When some operation of a valid `execute_transaction`
call raises (the operation loop aborts), the call *returns* (does not
raise) status `"failed"` with `rollback_performed = true`,
`operations_executed` equal to the number of operations completed before
the failing one, a top-level error message, and the partial results: one
successful entry per completed operation in input order, followed by a
failure entry carrying the error message whenever the failing operation has
a truthy `type` field (when the failure is the missing-`type` validation,
no failure entry is appended); and the caller-visible committed state after
the call equals the state before it. -/
theorem execute_transaction_failure_spec {σ : Type} (E : Engine σ)
    (fs : List String) (store : String → σ) (dbName : String)
    (ops : List Operation) (iso : String)
    {c2 : Conn σ} {rs : List OpResult} {k : Nat} {err : String}
    (hfs : fs.contains (getDbPath dbName) = true)
    (hiso : iso = "DEFERRED" ∨ iso = "IMMEDIATE" ∨ iso = "EXCLUSIVE")
    (hne : ops ≠ [])
    (hrun : txLoop E ⟨store (getDbPath dbName),
        some (store (getDbPath dbName)), [Ev.beginTx]⟩
        0 ops [] 0 = .failed c2 rs k err) :
    ∃ R cF, execute_transaction E fs store dbName ops iso = .ok (R, cF) ∧
      R.status = "failed" ∧ R.rollback_performed = true ∧
      R.operations_executed = k ∧ R.results = rs ∧
      R.error_message = some err ∧
      cF.committed = store (getDbPath dbName) ∧
      ∃ (j : Nat) (hj : j < ops.length) (tail : List OpResult),
        k = j ∧ tail.length = j ∧ okEntriesFrom 0 tail = true ∧
        ((strTruthy ops[j].type? = none ∧ rs = tail) ∨
         (strTruthy ops[j].type? ≠ none ∧
          rs = tail ++ [⟨j, "failed", none, some err⟩])) := by
  have hie : ops.isEmpty = false := by
    cases ops with
    | nil => exact absurd rfl hne
    | cons a l => rfl
  obtain ⟨hc2, j, hj, tail, hk, htl, hok, hcase⟩ := txLoop_failed hrun rfl
  unfold execute_transaction
  rw [if_neg (by simpa using hfs), if_neg (not_not_intro hiso),
    if_neg (by simp [hie])]
  simp only [Conn.execBegin, List.nil_append]
  rw [hrun]
  refine ⟨_, _, rfl, rfl, rfl, rfl, rfl, rfl, ?_, j, hj, tail,
    by simpa using hk, htl, hok, ?_⟩
  · simp [Conn.rollback, Conn.close, hc2]
  · rcases hcase with ⟨h1, h2⟩ | ⟨h1, h2⟩
    · exact Or.inl ⟨h1, by simpa using h2⟩
    · exact Or.inr ⟨h1, by simpa using h2⟩

/-- Shared concrete inputs for witnesses: one database file `db.db` whose
initial state is empty. -/
def fsW : List String := ["databases/db.db"]

/-- The store backing the witness database: every file starts empty. -/
def storeW : String → List (List Val) := fun _ => []

/-- A well-formed insert operation. -/
def opIns : Operation := ⟨some "insert", none, [], some "t", some [[("a", 5)]]⟩

/-- A well-formed read operation. -/
def opSel : Operation := ⟨some "query", some "SELECT * FROM t", [], none, none⟩

/-- A raw query whose execution raises in the toy engine. -/
def opBad : Operation := ⟨some "query", some "FAIL now", [], none, none⟩

/-- An operation with no `type` field. -/
def opNoType : Operation := ⟨none, none, [], none, none⟩

/-- C1 counterexample: an operation lacking the `type` field raises the
missing-`type` validation *outside* the inner try, so the returned
`results` list is empty — it contains no failure entry for the failing
operation, contradicting the claim that the partial results always include
one. -/
theorem execute_transaction_missing_type_no_failure_entry :
    ∃ R cF, execute_transaction toyEngine fsW storeW "db" [opNoType] "DEFERRED"
        = .ok (R, cF) ∧
      R.status = "failed" ∧ R.rollback_performed = true ∧
      R.operations_executed = 0 ∧ R.results = [] ∧
      R.error_message = some "Operation 0: missing 'type' field" :=
  ⟨_, _, rfl, rfl, rfl, rfl, rfl, rfl⟩

/-- Witness for C1 (amended): a transaction whose second operation raises
returns a failed result with one completed operation. -/
theorem execute_transaction_failure_spec_witness :
    ∃ R cF, execute_transaction toyEngine fsW storeW "db" [opIns, opBad]
        "DEFERRED" = .ok (R, cF) ∧ R.status = "failed" ∧
      R.operations_executed = 1 ∧ cF.committed = storeW "databases/db.db" := by
  obtain ⟨R, cF, h1, h2, _, h4, _, _, h7, _⟩ :=
    execute_transaction_failure_spec toyEngine fsW storeW "db" [opIns, opBad]
      "DEFERRED" (by decide) (Or.inl rfl) (by simp)
      (rfl :
        txLoop toyEngine ⟨storeW (getDbPath "db"),
          some (storeW (getDbPath "db")), [Ev.beginTx]⟩ 0 [opIns, opBad] [] 0 =
        .failed ⟨[], some [[5]],
            [Ev.beginTx, Ev.stmt "INSERT INTO t (a) VALUES (?)" [5]]⟩
          [⟨0, "success", some (.rowsInserted 1), none⟩,
           ⟨1, "failed", none, some "no such table"⟩] 1 "no such table")
  exact ⟨R, cF, h1, h2, h4, h7⟩

/-- Witness for C2: a transaction of two succeeding operations returns
success with two in-order results and a single commit. -/
theorem execute_transaction_success_spec_witness :
    ∃ R cF, execute_transaction toyEngine fsW storeW "db" [opIns, opSel]
        "DEFERRED" = .ok (R, cF) ∧ R.status = "success" ∧
      R.operations_executed = 2 ∧ R.results.length = 2 ∧
      cF.log.count Ev.commitTx = 1 := by
  obtain ⟨R, cF, h1, h2, _, h4, h5, _, _, h8⟩ :=
    execute_transaction_success_spec toyEngine fsW storeW "db" [opIns, opSel]
      "DEFERRED" (by decide) (Or.inl rfl) (by simp)
      (rfl :
        txLoop toyEngine ⟨storeW (getDbPath "db"),
          some (storeW (getDbPath "db")), [Ev.beginTx]⟩ 0 [opIns, opSel] [] 0 =
        .done ⟨[], some [[5]],
            [Ev.beginTx, Ev.stmt "INSERT INTO t (a) VALUES (?)" [5],
             Ev.stmt "SELECT * FROM t" []]⟩
          [⟨0, "success", some (.rowsInserted 1), none⟩,
           ⟨1, "success", some (.readRows ["c"] [[("c", 5)]] 1), none⟩] 2)
  exact ⟨R, cF, h1, h2, h4, h5, h8⟩

/-! ## Lemmas about the bulk-insert engine -/

lemma fallbackRecord_acc {E : Engine σ} {ut : Bool} {sql : String}
    {cols : List String} {r : Record} {ridx : Nat} {c c' : Conn σ}
    {ins ins' : Nat} {errs errs' : List ErrEntry}
    (h : fallbackRecord E ut sql cols r ridx c ins errs = (c', ins', errs')) :
    (ins' = ins + 1 ∧ errs' = errs) ∨
    (ins' = ins ∧ ∃ e, errs' =
      if errs.length < MAX_ERROR_DETAILS then errs ++ [⟨ridx, e⟩] else errs) := by
  unfold fallbackRecord at h
  split at h
  · simp only [Prod.mk.injEq] at h
    exact Or.inl ⟨h.2.1.symm, h.2.2.symm⟩
  · simp only [Prod.mk.injEq] at h
    rename_i c1 e topen _
    exact Or.inr ⟨h.2.1.symm, e, h.2.2.symm⟩

lemma fallbackBatch_spec {E : Engine σ} {ut : Bool} {sql : String}
    {cols : List String} :
    ∀ {batch : List Record} {ridx : Nat} {c c' : Conn σ} {ins ins' : Nat}
      {errs errs' : List ErrEntry},
    fallbackBatch E ut sql cols batch ridx c ins errs = (c', ins', errs') →
    errs.length ≤ MAX_ERROR_DETAILS →
    (errs.map ErrEntry.record_index).Pairwise (· < ·) →
    (∀ e ∈ errs, e.record_index < ridx) →
    ∃ s f, ins' = ins + s ∧ s + f = batch.length ∧
      errs'.length = min (errs.length + f) MAX_ERROR_DETAILS ∧
      (errs'.map ErrEntry.record_index).Pairwise (· < ·) ∧
      (∀ e ∈ errs', e.record_index < ridx + batch.length) := by
  intro batch
  induction batch with
  | nil =>
    intro ridx c c' ins ins' errs errs' h hle hpw hub
    simp only [fallbackBatch, Prod.mk.injEq] at h
    refine ⟨0, 0, by omega, rfl, ?_, by rw [← h.2.2]; exact hpw, ?_⟩
    · rw [← h.2.2]; omega
    · intro e he; rw [← h.2.2] at he; simpa using hub e he
  | cons r rs ih =>
    intro ridx c c' ins ins' errs errs' h hle hpw hub
    rcases hfr : fallbackRecord E ut sql cols r ridx c ins errs with ⟨c1, ins1, errs1⟩
    simp only [fallbackBatch, hfr] at h
    have hub' : ∀ e ∈ errs, e.record_index < ridx + 1 :=
      fun e he => Nat.lt_succ_of_lt (hub e he)
    rcases fallbackRecord_acc hfr with ⟨hi, he⟩ | ⟨hi, e, he⟩
    · subst hi; subst he
      obtain ⟨s, f, h1, h2, h3, h4, h5⟩ := ih h hle hpw hub'
      refine ⟨s + 1, f, by omega, by simp only [List.length_cons]; omega, h3, h4,
        ?_⟩
      intro x hx
      have := h5 x hx
      simp only [List.length_cons]
      omega
    · subst hi
      by_cases hcap : errs.length < MAX_ERROR_DETAILS
      · rw [if_pos hcap] at he
        subst he
        have hpw1 : ((errs ++ [(⟨ridx, e⟩ : ErrEntry)]).map
            ErrEntry.record_index).Pairwise (· < ·) := by
          rw [List.map_append, List.pairwise_append]
          refine ⟨hpw, by simp, ?_⟩
          intro a ha b hb
          simp only [List.map_cons, List.map_nil, List.mem_singleton] at hb
          subst hb
          rw [List.mem_map] at ha
          obtain ⟨x, hx, rfl⟩ := ha
          exact hub x hx
        have hub1 : ∀ x ∈ errs ++ [(⟨ridx, e⟩ : ErrEntry)],
            x.record_index < ridx + 1 := by
          intro x hx
          rw [List.mem_append] at hx
          rcases hx with hx | hx
          · exact Nat.lt_succ_of_lt (hub x hx)
          · rw [List.mem_singleton] at hx
            subst hx
            exact Nat.lt_succ_self ridx
        obtain ⟨s, f, h1, h2, h3, h4, h5⟩ := ih h
          (by simp only [List.length_append, List.length_cons, List.length_nil]
              omega)
          hpw1 hub1
        refine ⟨s, f + 1, h1, by simp only [List.length_cons]; omega, ?_, h4, ?_⟩
        · rw [h3]
          simp only [List.length_append, List.length_cons, List.length_nil]
          omega
        · intro x hx
          have := h5 x hx
          simp only [List.length_cons]
          omega
      · rw [if_neg hcap] at he
        subst he
        obtain ⟨s, f, h1, h2, h3, h4, h5⟩ := ih h hle hpw hub'
        refine ⟨s, f + 1, h1, by simp only [List.length_cons]; omega, ?_, h4, ?_⟩
        · rw [h3]; omega
        · intro x hx
          have := h5 x hx
          simp only [List.length_cons]
          omega

lemma ceil_step (len bs1 : Nat) (h : 0 < len) :
    (len + bs1) / (bs1 + 1) = (len - (bs1 + 1) + bs1) / (bs1 + 1) + 1 := by
  rcases le_or_lt len (bs1 + 1) with hle | hlt
  · have h1 : len - (bs1 + 1) = 0 := by omega
    have h2 : len + bs1 = (len - 1) + (bs1 + 1) := by omega
    rw [h1, h2, Nat.add_div_right _ (by omega)]
    have h3 : (len - 1) / (bs1 + 1) = 0 := Nat.div_eq_of_lt (by omega)
    have h4 : (0 + bs1) / (bs1 + 1) = 0 := Nat.div_eq_of_lt (by omega)
    omega
  · have h2 : len + bs1 = (len - (bs1 + 1) + bs1) + (bs1 + 1) := by omega
    rw [h2, Nat.add_div_right _ (by omega)]

lemma bulkBatches_spec {E : Engine σ} {ut : Bool} {sql : String}
    {cols : List String} {bs1 : Nat} :
    ∀ (N : Nat) {rem : List Record}, rem.length ≤ N →
    ∀ {bst : Nat} {c c' : Conn σ} {ins ins' : Nat}
      {errs errs' : List ErrEntry} {bp bp' : Nat},
    bulkBatches E ut sql cols bs1 N rem bst c ins errs bp = (c', ins', errs', bp') →
    errs.length ≤ MAX_ERROR_DETAILS →
    (errs.map ErrEntry.record_index).Pairwise (· < ·) →
    (∀ e ∈ errs, e.record_index < bst) →
    ∃ s f, ins' = ins + s ∧ s + f = rem.length ∧
      errs'.length = min (errs.length + f) MAX_ERROR_DETAILS ∧
      (errs'.map ErrEntry.record_index).Pairwise (· < ·) ∧
      (∀ e ∈ errs', e.record_index < bst + rem.length) ∧
      bp' = bp + (rem.length + bs1) / (bs1 + 1) := by
  intro N
  induction N with
  | zero =>
    intro rem hN bst c c' ins ins' errs errs' bp bp' h hle hpw hub
    have hnil : rem = [] := List.length_eq_zero.mp (Nat.le_zero.mp hN)
    subst hnil
    simp only [bulkBatches, Prod.mk.injEq] at h
    refine ⟨0, 0, by omega, rfl, ?_, by rw [← h.2.2.1]; exact hpw, ?_, ?_⟩
    · rw [← h.2.2.1]; omega
    · intro e he; rw [← h.2.2.1] at he; simpa using hub e he
    · rw [← h.2.2.2]
      simp [Nat.div_eq_of_lt (by omega : bs1 < bs1 + 1)]
  | succ N ih =>
    intro rem hN bst c c' ins ins' errs errs' bp bp' h hle hpw hub
    cases rem with
    | nil =>
      simp only [bulkBatches, Prod.mk.injEq] at h
      refine ⟨0, 0, by omega, rfl, ?_, by rw [← h.2.2.1]; exact hpw, ?_, ?_⟩
      · rw [← h.2.2.1]; omega
      · intro e he; rw [← h.2.2.1] at he; simpa using hub e he
      · rw [← h.2.2.2]
        simp [Nat.div_eq_of_lt (by omega : bs1 < bs1 + 1)]
    | cons r rest =>
      have hlen : ((r :: rest).drop (bs1 + 1)).length ≤ N := by
        simp only [List.length_drop, List.length_cons] at *
        omega
      have htake : ((r :: rest).take (bs1 + 1)).length = min (bs1 + 1)
          ((r :: rest).length) := by
        rw [List.length_take]
      simp only [bulkBatches] at h
      rcases htb : tryBatch E ut sql cols ((r :: rest).take (bs1 + 1)) c with
        ⟨c1, ok⟩
      cases ok with
      | true =>
        simp only [htb] at h
        obtain ⟨s, f, h1, h2, h3, h4, h5, h6⟩ := ih hlen h hle hpw
          (fun e he => lt_of_lt_of_le (hub e he) (Nat.le_add_right _ _))
        refine ⟨((r :: rest).take (bs1 + 1)).length + s, f, by omega, ?_, h3,
          h4, ?_, ?_⟩
        · rw [List.length_drop] at h2
          simp only [List.length_cons] at *
          omega
        · intro e he
          have := h5 e he
          rw [List.length_drop] at this
          simp only [List.length_cons] at *
          omega
        · rw [h6, List.length_drop]
          simp only [List.length_cons] at *
          have := ceil_step (rest.length + 1) bs1 (by omega)
          omega
      | false =>
        simp only [htb] at h
        rcases hfb : fallbackBatch E ut sql cols ((r :: rest).take (bs1 + 1))
            bst c1 ins errs with ⟨c2, ins2, errs2⟩
        simp only [hfb] at h
        obtain ⟨s0, f0, g1, g2, g3, g4, g5⟩ := fallbackBatch_spec hfb hle hpw hub
        obtain ⟨s, f, h1, h2, h3, h4, h5, h6⟩ := ih hlen h (by rw [g3]; omega) g4
          (fun e he => g5 e he)
        refine ⟨s0 + s, f0 + f, by omega, ?_, ?_, h4, ?_, ?_⟩
        · rw [List.length_drop] at h2
          rw [htake] at g2
          simp only [List.length_cons] at *
          omega
        · rw [h3, g3]
          omega
        · intro e he
          have := h5 e he
          rw [List.length_drop] at this
          rw [htake] at g5
          simp only [List.length_cons] at *
          omega
        · rw [h6, List.length_drop]
          simp only [List.length_cons] at *
          have := ceil_step (rest.length + 1) bs1 (by omega)
          omega

lemma bulk_insert_ok_spec {E : Engine σ} {fs : List String} {store : String → σ}
    {dbName table : String} {records : List Record} {bs : Nat} {ut : Bool}
    {res : BulkResult} {c : Conn σ}
    (h : bulk_insert_optimized E fs store dbName table records bs ut
      = .ok (res, c)) :
    ∃ bs1, bs = bs1 + 1 ∧
    res.total_records = records.length ∧
    ∃ s f, res.inserted_records = s ∧ s + f = records.length ∧
      res.failed_records = records.length - s ∧
      res.errors.length = min f MAX_ERROR_DETAILS ∧
      (res.errors.map ErrEntry.record_index).Pairwise (· < ·) ∧
      (∀ e ∈ res.errors, e.record_index < records.length) ∧
      res.batches_processed = (records.length + bs1) / (bs1 + 1) := by
  cases records with
  | nil =>
    by_cases hfs : getDbPath dbName ∈ fs <;>
      simp [bulk_insert_optimized, hfs] at h
  | cons r0 rest =>
    cases bs with
    | zero =>
      by_cases hfs : getDbPath dbName ∈ fs <;>
        simp [bulk_insert_optimized, hfs] at h
    | succ bs1 =>
      simp only [bulk_insert_optimized] at h
      split at h
      · exact absurd h (by simp)
      · split at h
        · exact absurd h (by simp)
        · split at h
          · exact absurd h (by simp)
          · rcases hbb : bulkBatches E ut
                (insertSqlFor table (r0.map Prod.fst)) (r0.map Prod.fst) bs1
                (r0 :: rest).length (r0 :: rest) 0
                ⟨store (getDbPath dbName), none, []⟩ 0 [] 0 with
              ⟨c1, ins, errs, batches⟩
            simp only [hbb] at h
            obtain ⟨s, f, h1, h2, h3, h4, h5, h6⟩ :=
              bulkBatches_spec (r0 :: rest).length (Nat.le_refl _) hbb
                (by simp [MAX_ERROR_DETAILS]) (by simp) (by simp)
            simp only [Except.ok.injEq, Prod.mk.injEq] at h
            obtain ⟨hres, hc⟩ := h
            subst hres
            refine ⟨bs1, rfl, rfl, s, f, by simpa using h1, by omega, ?_, ?_,
              h4, ?_, by simpa using h6⟩
            · simp only
              omega
            · simpa using h3
            · intro e he
              simpa using h5 e he

/-- C3.  For every `bulk_insert_optimized` call that returns a result,
`inserted_records + failed_records = total_records = len(records)`, and
every `record_index` in the returned `errors` list is unique and lies
within `[0, total_records)`. -/
theorem bulk_insert_conservation {σ : Type} (E : Engine σ) (fs : List String)
    (store : String → σ) (dbName table : String) (records : List Record)
    (bs : Nat) (ut : Bool) {res : BulkResult} {c : Conn σ}
    (h : bulk_insert_optimized E fs store dbName table records bs ut
      = .ok (res, c)) :
    res.inserted_records + res.failed_records = res.total_records ∧
    res.total_records = records.length ∧
    (res.errors.map ErrEntry.record_index).Nodup ∧
    ∀ e ∈ res.errors, e.record_index < res.total_records := by
  obtain ⟨bs1, _, ht, s, f, h1, h2, h3, _, h5, h6, _⟩ := bulk_insert_ok_spec h
  refine ⟨by omega, ht, ?_, ?_⟩
  · exact h5.imp (fun hlt => Nat.ne_of_lt hlt)
  · intro e he
    rw [ht]
    exact h6 e he

/-- Witness records: three same-shaped rows, the middle one violating the
toy engine's constraint. -/
def recsW3 : List Record := [[("a", 1)], [("a", -1)], [("a", 2)]]

/-- Witness for C3: a mixed success/failure bulk insert satisfies the
conservation invariant. -/
theorem bulk_insert_conservation_witness :
    ∃ res c, bulk_insert_optimized toyEngine fsW storeW "db" "t" recsW3 2 true
        = .ok (res, c) ∧
      res.inserted_records + res.failed_records = res.total_records ∧
      (res.errors.map ErrEntry.record_index).Nodup := by
  obtain ⟨⟨res, c⟩, hx⟩ : ∃ x, bulk_insert_optimized toyEngine fsW storeW "db"
      "t" recsW3 2 true = .ok x := ⟨_, rfl⟩
  obtain ⟨h1, _, h3, _⟩ := bulk_insert_conservation toyEngine fsW storeW "db"
    "t" recsW3 2 true hx
  exact ⟨res, c, hx, h1, h3⟩

/-- 51 same-shaped records that all violate the toy engine's constraint. -/
def recsBadW : List Record := List.replicate 51 [("a", -1)]

set_option maxRecDepth 8000 in
/-- C4 counterexample: with 51 failing records the error list is capped at
`MAX_ERROR_DETAILS = 50`, so the 51st failed record (absolute index 50) is
neither counted in `inserted_records` (which is 0) nor present in the
returned `errors` list — refuting "every input record is either counted in
inserted_records or appears in the errors list exactly once". -/
theorem bulk_insert_errors_cap_loses_records :
    ∃ res c, bulk_insert_optimized toyEngine fsW storeW "db" "t" recsBadW
        1000 true = .ok (res, c) ∧
      res.total_records = 51 ∧ res.inserted_records = 0 ∧
      res.failed_records = 51 ∧ res.errors.length = 50 ∧
      (res.errors.map ErrEntry.record_index).count 50 = 0 :=
  ⟨_, _, rfl, rfl, rfl, rfl, rfl, rfl⟩

/-- C4 (amended).  For every `bulk_insert_optimized` call that returns a
result, every input record is either counted in `inserted_records` or
counted in `failed_records`; the `errors` list has pairwise-distinct record
indices (so each failed record appears at most once) and contains exactly
`min failed_records 50` entries — one entry per failed record up to the
`MAX_ERROR_DETAILS = 50` cap. -/
theorem bulk_insert_record_accounting {σ : Type} (E : Engine σ)
    (fs : List String) (store : String → σ) (dbName table : String)
    (records : List Record) (bs : Nat) (ut : Bool) {res : BulkResult}
    {c : Conn σ}
    (h : bulk_insert_optimized E fs store dbName table records bs ut
      = .ok (res, c)) :
    res.inserted_records + res.failed_records = res.total_records ∧
    (res.errors.map ErrEntry.record_index).Nodup ∧
    res.errors.length = min res.failed_records MAX_ERROR_DETAILS := by
  obtain ⟨bs1, _, ht, s, f, h1, h2, h3, h4, h5, _, _⟩ := bulk_insert_ok_spec h
  refine ⟨by omega, h5.imp (fun hlt => Nat.ne_of_lt hlt), ?_⟩
  rw [h4, h3]
  omega

/-- Witness for C4 (amended): the mixed run has one failed record and one
error entry. -/
theorem bulk_insert_record_accounting_witness :
    ∃ res c, bulk_insert_optimized toyEngine fsW storeW "db" "t" recsW3 2 true
        = .ok (res, c) ∧
      res.errors.length = min res.failed_records MAX_ERROR_DETAILS := by
  obtain ⟨⟨res, c⟩, hx⟩ : ∃ x, bulk_insert_optimized toyEngine fsW storeW "db"
      "t" recsW3 2 true = .ok x := ⟨_, rfl⟩
  obtain ⟨_, _, h3⟩ := bulk_insert_record_accounting toyEngine fsW storeW "db"
    "t" recsW3 2 true hx
  exact ⟨res, c, hx, h3⟩

lemma insertRows_partial (E : Engine σ) (sql : String) (cols : List String) :
    ∀ (rows : List Record) (c : Conn σ), c.pending.isSome →
    (insertRows E sql cols rows c).1.committed = c.committed ∧
      (insertRows E sql cols rows c).1.pending.isSome := by
  intro rows
  induction rows with
  | nil =>
    intro c hp
    exact ⟨rfl, hp⟩
  | cons r rs ih =>
    intro c hp
    simp only [insertRows]
    split
    · exact ⟨rfl, hp⟩
    · split
      · exact ⟨rfl, hp⟩
      · rename_i vs hg p c1 o hs
        obtain ⟨h1, h2, _⟩ := Conn.execStmt_ok hp hs
        obtain ⟨h3, h4⟩ := ih c1 h2
        exact ⟨h3.trans h1, h4⟩

lemma tryBatch_failed_rollback {E : Engine σ} {sql : String}
    {cols : List String} {batch : List Record} {c0 c1 : Conn σ}
    (h : tryBatch E true sql cols batch c0 = (c1, false)) :
    c1.committed = c0.committed ∧ c1.pending = none := by
  unfold tryBatch at h
  simp only [if_true] at h
  rcases hpe : c0.pending with _ | s0
  · simp only [Conn.execBegin, hpe] at h
    rcases hir : insertRows E sql cols batch
        ⟨c0.committed, some c0.committed, c0.log ++ [Ev.beginTx]⟩ with ⟨c2, e?⟩
    rw [hir] at h
    rcases e? with _ | e
    · simp at h
    · simp only [Prod.mk.injEq] at h
      have hpart := insertRows_partial E sql cols batch
        ⟨c0.committed, some c0.committed, c0.log ++ [Ev.beginTx]⟩ rfl
      rw [hir] at hpart
      rw [← h.1]
      exact ⟨hpart.1, rfl⟩
  · simp only [Conn.execBegin, hpe] at h
    simp only [Prod.mk.injEq] at h
    rw [← h.1]
    exact ⟨rfl, rfl⟩

lemma fallbackRecord_own_txn {E : Engine σ} {sql : String}
    {cols : List String} {r : Record} {ridx : Nat} {c0 c1 : Conn σ}
    {ins ins' : Nat} {errs errs' : List ErrEntry} (hp : c0.pending = none)
    (h : fallbackRecord E true sql cols r ridx c0 ins errs
      = (c1, ins', errs')) :
    c1.pending = none ∧
    ((ins' = ins + 1 ∧ errs' = errs ∧ ∃ vs s' out, getVals r cols = .ok vs ∧
        E.exec c0.committed sql vs = .ok (s', out) ∧ c1.committed = s') ∨
     (ins' = ins ∧ c1.committed = c0.committed ∧ ∃ e,
        errs' = if errs.length < MAX_ERROR_DETAILS then errs ++ [⟨ridx, e⟩]
          else errs)) := by
  unfold fallbackRecord fallbackAttempt at h
  simp only [if_true, Conn.execBegin, hp] at h
  split at h
  · rename_i heq
    split at heq
    · exact absurd heq (by simp)
    · rename_i vs hg
      split at heq
      · exact absurd heq (by simp)
      · rename_i c2 out hs
        simp only [Prod.mk.injEq] at heq
        unfold Conn.execStmt at hs
        split at hs
        · exact absurd hs (by simp)
        · rename_i s' o hE
          simp only [Prod.mk.injEq] at h
          rw [← h.1, ← heq.1]
          have hcommit : ∀ cc : Conn σ, cc.pending = some s' →
              (Conn.commit cc).committed = s' ∧ (Conn.commit cc).pending = none := by
            intro cc hcc
            simp [Conn.commit, hcc]
          split at hs
          · simp only [Except.ok.injEq, Prod.mk.injEq] at hs
            obtain ⟨hc2, ho⟩ := hs
            refine ⟨(hcommit c2 (by rw [← hc2])).2, Or.inl ⟨by omega, h.2.2.symm,
              vs, s', o, hg, by simpa using hE, (hcommit c2 (by rw [← hc2])).1⟩⟩
          · split at hs
            · simp only [Except.ok.injEq, Prod.mk.injEq] at hs
              obtain ⟨hc2, ho⟩ := hs
              refine ⟨(hcommit c2 (by rw [← hc2])).2, Or.inl ⟨by omega,
                h.2.2.symm, vs, s', o, hg, by simpa using hE,
                (hcommit c2 (by rw [← hc2])).1⟩⟩
            · rename_i hpe
              exact absurd hpe (by simp)
  · rename_i e topen heq
    split at heq
    · simp only [Prod.mk.injEq, Option.some.injEq] at heq
      obtain ⟨hc', -, ht⟩ := heq
      subst ht
      rw [← hc'] at h
      simp only [Bool.and_self, eq_self_iff_true, if_true,
        Prod.mk.injEq] at h
      rw [← h.1]
      exact ⟨rfl, Or.inr ⟨h.2.1.symm, rfl, e, h.2.2.symm⟩⟩
    · rename_i vs hg
      split at heq
      · simp only [Prod.mk.injEq, Option.some.injEq] at heq
        obtain ⟨hc', -, ht⟩ := heq
        subst ht
        rw [← hc'] at h
        simp only [Bool.and_self, eq_self_iff_true, if_true,
          Prod.mk.injEq] at h
        rw [← h.1]
        exact ⟨rfl, Or.inr ⟨h.2.1.symm, rfl, e, h.2.2.symm⟩⟩
      · exact absurd heq (by simp)

/-- C5.  With `use_transaction = true`: records are processed in contiguous
batches of `batch_size` and `batches_processed = ceil(total/batch_size)`;
the error list is capped at `MAX_ERROR_DETAILS = 50` and tags only
in-range absolute record indices; a failed batch is rolled back (the
committed state after the failed attempt equals the state before it, with
no transaction left open); and each record of the per-record fallback runs
in its own transaction: a success immediately commits exactly that
record's write and counts toward `inserted_records`, while a failure is
caught (never propagated), leaves the committed state unchanged, and is
recorded with the record's original absolute index subject to the cap. -/
theorem bulk_insert_batching_fallback_spec {σ : Type} (E : Engine σ)
    (fs : List String) (store : String → σ) (dbName table : String)
    (records : List Record) (bs : Nat) {res : BulkResult} {c : Conn σ}
    (h : bulk_insert_optimized E fs store dbName table records bs true
      = .ok (res, c)) :
    res.batches_processed = (records.length + (bs - 1)) / bs ∧
    res.errors.length ≤ MAX_ERROR_DETAILS ∧
    (∀ e ∈ res.errors, e.record_index < records.length) ∧
    (∀ (sql : String) (cols : List String) (batch : List Record)
       (c0 c1 : Conn σ), tryBatch E true sql cols batch c0 = (c1, false) →
       c1.committed = c0.committed ∧ c1.pending = none) ∧
    (∀ (sql : String) (cols : List String) (r : Record) (ridx ins ins' : Nat)
       (errs errs' : List ErrEntry) (c0 c1 : Conn σ), c0.pending = none →
       fallbackRecord E true sql cols r ridx c0 ins errs = (c1, ins', errs') →
       c1.pending = none ∧
       ((ins' = ins + 1 ∧ errs' = errs ∧ ∃ vs s' out,
           getVals r cols = .ok vs ∧
           E.exec c0.committed sql vs = .ok (s', out) ∧ c1.committed = s') ∨
        (ins' = ins ∧ c1.committed = c0.committed ∧ ∃ e,
           errs' = if errs.length < MAX_ERROR_DETAILS then
             errs ++ [⟨ridx, e⟩] else errs))) := by
  obtain ⟨bs1, hbs, ht, s, f, h1, h2, h3, h4, h5, h6, h7⟩ :=
    bulk_insert_ok_spec h
  subst hbs
  refine ⟨by simpa using h7, by rw [h4]; omega, ?_, ?_, ?_⟩
  · intro e he
    exact h6 e he
  · intro sql cols batch c0 c1 htb
    exact tryBatch_failed_rollback htb
  · intro sql cols r ridx ins0 ins0' errs0 errs0' c0 c1 hp hfr
    exact fallbackRecord_own_txn hp hfr

/-- 25 well-formed records as in the spec's bulk-insert scenario. -/
def recsOKW : List Record := List.replicate 25 [("a", 1)]

/-- Witness for C5: 25 records with batch_size 8 give
`batches_processed = 4`. -/
theorem bulk_insert_batching_fallback_spec_witness :
    ∃ res c, bulk_insert_optimized toyEngine fsW storeW "db" "t" recsOKW 8
        true = .ok (res, c) ∧ res.batches_processed = 4 ∧
      res.errors.length ≤ MAX_ERROR_DETAILS := by
  obtain ⟨⟨res, c⟩, hx⟩ : ∃ x, bulk_insert_optimized toyEngine fsW storeW "db"
      "t" recsOKW 8 true = .ok x := ⟨_, rfl⟩
  obtain ⟨hb, he, _⟩ := bulk_insert_batching_fallback_spec toyEngine fsW
    storeW "db" "t" recsOKW 8 hx
  refine ⟨res, c, hx, ?_, he⟩
  rw [hb]
  rfl

/-- C9 at its failing input: with `use_transaction = false` the code opens
no explicit transaction (no BEGIN is ever issued) and never commits on the
all-batches-succeed path, yet Python's sqlite3 default mode is *not*
autocommit — the insert sits in an implicitly opened transaction that
`conn.close()` rolls back.  The call reports the record as inserted while
the caller-visible committed state is unchanged: the write is lost. -/
theorem bulk_insert_no_transaction_loses_rows :
    ∃ res c, bulk_insert_optimized toyEngine fsW storeW "db" "t" [[("a", 1)]]
        1000 false = .ok (res, c) ∧
      res.status = "success" ∧ res.inserted_records = 1 ∧
      res.failed_records = 0 ∧
      c.committed = storeW "databases/db.db" ∧
      Ev.beginTx ∉ c.log ∧ Ev.commitTx ∉ c.log :=
  ⟨_, _, rfl, rfl, rfl, rfl, rfl, by decide, by decide⟩

/-! ## Prepared-statement cache claims -/

/-- C6.  `execute_prepared` on an existing, database-matching session with
a wrong parameter count fails with the validation error *before* any
statement is executed: the registry — including the session's connection
and hence its transaction state — is returned exactly as it was, and the
session stays cached. -/
theorem execute_prepared_arity_check {σ : Type} (E : Engine σ)
    (cache : Cache σ) (dbName id : String) (params : List Val)
    {info : StmtInfo σ}
    (hs : cache id = some info)
    (hdb : info.database_name = dbName)
    (hlen : params.length ≠ countParams info.sql) :
    execute_prepared E cache dbName id params =
      (.error ("Parameter count mismatch: expected " ++
        toString (countParams info.sql) ++ ", got " ++
        toString params.length), cache) ∧
    (execute_prepared E cache dbName id params).2 id = some info := by
  unfold execute_prepared
  simp only [hs]
  rw [if_neg (by simp [hdb]), if_pos hlen]
  exact ⟨rfl, hs⟩

/-- A concrete cached session for witnesses: one placeholder, bound to
database name `db`. -/
def infoW : StmtInfo (List (List Val)) :=
  { conn := { committed := [], pending := none, log := [] },
    db_path := "databases/db.db", sql := "SELECT ?", database_name := "db" }

/-- A registry holding exactly the session `s1 ↦ infoW`. -/
def cacheW : Cache (List (List Val)) :=
  fun x => if x = "s1" then some infoW else none

/-- Witness for C6: two parameters against one placeholder fail with the
mismatch message and leave the registry untouched. -/
theorem execute_prepared_arity_check_witness :
    execute_prepared toyEngine cacheW "db" "s1" [1, 2] =
      (.error "Parameter count mismatch: expected 1, got 2", cacheW) ∧
    (execute_prepared toyEngine cacheW "db" "s1" [1, 2]).2 "s1" =
      some infoW := by
  have h := execute_prepared_arity_check toyEngine cacheW "db" "s1" [1, 2]
    rfl rfl (by decide)
  exact ⟨by rw [h.1]; rfl, h.2⟩

/-- C7.  The prepared-statement identity lifecycle: after a successful
`prepare_statement(db, id, sql)`, a second prepare with the same id fails
with the already-exists error and leaves the registry (hence the existing
session) unchanged; after `close_prepared(db, id)` succeeds, the id is
gone from the registry (all other sessions untouched) and a subsequent
prepare with the same id succeeds. -/
theorem prepared_statement_identity_lifecycle {σ : Type} (fs : List String)
    (store : String → σ) (cache : Cache σ) (db id sql : String)
    {r : PrepResult} {c1 : Cache σ}
    (h : prepare_statement fs store cache db id sql = (.ok r, c1)) :
    (∀ sql2, prepare_statement fs store c1 db id sql2 =
      (.error ("Statement ID '" ++ id ++ "' already exists. " ++
        "Use a different ID or close the existing statement first."), c1)) ∧
    ∃ ack c2, close_prepared c1 db id = (.ok ack, c2) ∧ c2 id = none ∧
      (∀ x, x ≠ id → c2 x = c1 x) ∧
      ∀ sql2, sql2 ≠ "" → ∃ r2 c3,
        prepare_statement fs store c2 db id sql2 = (.ok r2, c3) := by
  simp only [prepare_statement] at h
  by_cases hfs : ¬ fs.contains (getDbPath db) = true
  · rw [if_pos hfs] at h
    exact absurd h (by simp)
  · rw [if_neg hfs] at h
    by_cases hid : (cache id).isSome
    · rw [if_pos hid] at h
      exact absurd h (by simp)
    · rw [if_neg hid] at h
      by_cases hsql : sql = ""
      · rw [if_pos hsql] at h
        exact absurd h (by simp)
      · rw [if_neg hsql] at h
        simp only [Prod.mk.injEq] at h
        have hc1 : c1 = fun x => if x = id then
            some { conn := { committed := store (getDbPath db), pending := none,
                             log := [] },
                   db_path := getDbPath db, sql := sql, database_name := db }
            else cache x := h.2.symm
        have hc1id : c1 id = some
            { conn := { committed := store (getDbPath db), pending := none,
                        log := [] },
              db_path := getDbPath db, sql := sql, database_name := db } := by
          rw [hc1]; simp
        constructor
        · intro sql2
          simp only [prepare_statement]
          rw [if_neg hfs, if_pos (by rw [hc1id]; rfl)]
        · refine ⟨⟨id, "Prepared statement '" ++ id ++ "' closed successfully"⟩,
            fun x => if x = id then none else c1 x, ?_, by simp, ?_, ?_⟩
          · unfold close_prepared
            simp only [hc1id]
            rw [if_neg (by simp)]
          · intro x hx
            simp [hx]
          · intro sql2 hsql2
            refine ⟨⟨id, countParams sql2, db, sql2⟩,
              fun x => if x = id then
                some { conn := { committed := store (getDbPath db),
                                 pending := none, log := [] },
                       db_path := getDbPath db, sql := sql2,
                       database_name := db }
                else if x = id then none else c1 x, ?_⟩
            simp only [prepare_statement]
            rw [if_neg hfs, if_neg (by simp), if_neg hsql2]

/-- Witness for C7: the lifecycle on a concrete registry. -/
theorem prepared_statement_identity_lifecycle_witness :
    ∃ r c1, prepare_statement fsW storeW (fun _ => none) "db" "s1" "SELECT ?"
        = (.ok r, c1) ∧
      (prepare_statement fsW storeW c1 "db" "s1" "SELECT 1").1 =
        .error ("Statement ID 's1' already exists. " ++
          "Use a different ID or close the existing statement first.") ∧
      ∃ ack c2, close_prepared c1 "db" "s1" = (.ok ack, c2) ∧
        c2 "s1" = none ∧
        ∃ r2 c3, prepare_statement fsW storeW c2 "db" "s1" "SELECT 1"
          = (.ok r2, c3) := by
  have h : prepare_statement fsW storeW (fun _ => none) "db" "s1" "SELECT ?"
      = (.ok ⟨"s1", 1, "db", "SELECT ?"⟩, cacheW) := rfl
  obtain ⟨hdup, ack, c2, hclose, hc2, _, hprep2⟩ :=
    prepared_statement_identity_lifecycle fsW storeW (fun _ => none) "db"
      "s1" "SELECT ?" h
  obtain ⟨r2, c3, hp3⟩ := hprep2 "SELECT 1" (by decide)
  refine ⟨_, _, h, ?_, ack, c2, hclose, hc2, r2, c3, hp3⟩
  rw [hdup "SELECT 1"]
  rfl

lemma pyEndsWith_append_db (s : String) : pyEndsWith (s ++ ".db") ".db" = true := by
  unfold pyEndsWith
  rw [String.data_append]
  exact (List.isSuffixOf_iff_suffix).mpr (List.suffix_append _ _)

lemma ne_append_db (s : String) : s ≠ s ++ ".db" := by
  intro h
  have h2 := congrArg (fun t => t.data.length) h
  simp only [String.data_append, List.length_append] at h2
  simp at h2

/-- C10.  `execute_prepared` and `close_prepared` compare the call's
`database` argument to the name stored at prepare time by raw string
equality, while `_get_db_path` appends the `.db` extension when missing:
for any name without the extension, both names resolve to the same file
path, yet preparing under the bare name and then executing (or closing)
under the name plus `.db` fails with the database-mismatch error, leaving
the registry unchanged. -/
theorem prepared_database_name_mismatch_despite_same_path {σ : Type}
    (E : Engine σ) (fs : List String) (store : String → σ) (cache : Cache σ)
    (db id sql : String) (params : List Val)
    (hnd : pyEndsWith db ".db" = false)
    {r : PrepResult} {c1 : Cache σ}
    (h : prepare_statement fs store cache db id sql = (.ok r, c1)) :
    getDbPath db = getDbPath (db ++ ".db") ∧
    execute_prepared E c1 (db ++ ".db") id params =
      (.error ("Database mismatch: statement was prepared for '" ++ db ++
        "', but execution requested for '" ++ (db ++ ".db") ++ "'"), c1) ∧
    close_prepared c1 (db ++ ".db") id =
      (.error ("Database mismatch: statement was prepared for '" ++ db ++
        "', but close requested for '" ++ (db ++ ".db") ++ "'"), c1) := by
  simp only [prepare_statement] at h
  by_cases hfs : ¬ fs.contains (getDbPath db) = true
  · rw [if_pos hfs] at h
    exact absurd h (by simp)
  · rw [if_neg hfs] at h
    by_cases hid : (cache id).isSome
    · rw [if_pos hid] at h
      exact absurd h (by simp)
    · rw [if_neg hid] at h
      by_cases hsql : sql = ""
      · rw [if_pos hsql] at h
        exact absurd h (by simp)
      · rw [if_neg hsql] at h
        simp only [Prod.mk.injEq] at h
        have hc1id : c1 id = some
            { conn := { committed := store (getDbPath db), pending := none,
                        log := [] },
              db_path := getDbPath db, sql := sql, database_name := db } := by
          rw [← h.2]; simp
        refine ⟨?_, ?_, ?_⟩
        · unfold getDbPath
          rw [if_neg (by rw [hnd]; exact fun hx => Bool.false_ne_true hx),
            if_pos (pyEndsWith_append_db db)]
        · unfold execute_prepared
          simp only [hc1id]
          rw [if_pos ?hne]
          case hne => exact ne_append_db db
        · unfold close_prepared
          simp only [hc1id]
          rw [if_pos ?hne2]
          case hne2 => exact ne_append_db db

/-- Witness for C10: prepare under `db`, then execute and close under
`db.db`. -/
theorem prepared_database_name_mismatch_witness :
    getDbPath "db" = getDbPath "db.db" ∧
    execute_prepared toyEngine cacheW "db.db" "s1" [1] =
      (.error ("Database mismatch: statement was prepared for 'db', " ++
        "but execution requested for 'db.db'"), cacheW) ∧
    close_prepared cacheW "db.db" "s1" =
      (.error ("Database mismatch: statement was prepared for 'db', " ++
        "but close requested for 'db.db'"), cacheW) := by
  have h : prepare_statement fsW storeW (fun _ => none) "db" "s1" "SELECT ?"
      = (.ok ⟨"s1", 1, "db", "SELECT ?"⟩, cacheW) := rfl
  have hm := prepared_database_name_mismatch_despite_same_path toyEngine fsW
    storeW (fun _ => none) "db" "s1" "SELECT ?" [1] (by decide) h
  refine ⟨hm.1, ?_, ?_⟩
  · rw [show ("db" ++ ".db" : String) = "db.db" from rfl] at hm
    rw [hm.2.1]
    rfl
  · rw [show ("db" ++ ".db" : String) = "db.db" from rfl] at hm
    rw [hm.2.2]
    rfl

/-! ## Lemmas about the batch query runner -/

/-- The (truthy) query id of a query, defaulting to the empty string. -/
def qidD (q : Query) : String := (strTruthy q.query_id?).getD ""

lemma dictSet_append {m : List (String × QEntry)} {k : String} {v : QEntry}
    (h : ∀ p ∈ m, p.1 ≠ k) : dictSet m k v = m ++ [(k, v)] := by
  unfold dictSet
  rw [if_neg]
  simp only [List.any_eq_true, not_exists, not_and]
  intro p hp
  simp [h p hp]

lemma batchLoop_noFailFast {E : Engine σ} :
    ∀ {qs : List Query} {c c' : Conn σ}
      {res res' : List (String × QEntry)} {s f s' f' : Nat},
    batchLoop E false qs c res s f = .ok (c', res', s', f') →
    (∀ q ∈ qs, strTruthy q.query_id? = some (qidD q)) →
    (∀ q ∈ qs, ∀ p ∈ res, p.1 ≠ qidD q) →
    (qs.map qidD).Nodup →
    res'.map Prod.fst = res.map Prod.fst ++ qs.map qidD ∧
    s' + f' = s + f + qs.length := by
  intro qs
  induction qs with
  | nil =>
    intro c c' res res' s f s' f' h hqid hfresh hnd
    simp only [batchLoop, Except.ok.injEq, Prod.mk.injEq] at h
    obtain ⟨-, h2, h3, h4⟩ := h
    subst h2; subst h3; subst h4
    simp
  | cons q qs ih =>
    intro c c' res res' s f s' f' h hqid hfresh hnd
    have hq : strTruthy q.query_id? = some (qidD q) := hqid q (by simp)
    simp only [batchLoop, hq] at h
    have hds : ∀ v, dictSet res (qidD q) v = res ++ [(qidD q, v)] :=
      fun v => dictSet_append (fun p hp => hfresh q (by simp) p hp)
    have hfresh' : ∀ v, ∀ q' ∈ qs, ∀ p ∈ res ++ [(qidD q, v)],
        p.1 ≠ qidD q' := by
      intro v q' hq' p hp
      rw [List.mem_append] at hp
      rcases hp with hp | hp
      · exact hfresh q' (by simp [hq']) p hp
      · rw [List.mem_singleton] at hp
        subst hp
        simp only [List.map_cons, List.nodup_cons, List.mem_map] at hnd
        exact fun hcontra => hnd.1 ⟨q', hq', hcontra.symm⟩
    have hqid' : ∀ q' ∈ qs, strTruthy q'.query_id? = some (qidD q') :=
      fun q' hq' => hqid q' (by simp [hq'])
    have hnd' : (qs.map qidD).Nodup := by
      simp only [List.map_cons, List.nodup_cons] at hnd
      exact hnd.2
    split at h
    · rw [hds _] at h
      obtain ⟨h1, h2⟩ := ih h hqid' (hfresh' _) hnd'
      rw [h1]
      simp only [List.map_append, List.map_cons, List.length_cons]
      refine ⟨by simp, by omega⟩
    · rename_i sql hsql
      split at h
      · rw [hds _] at h
        obtain ⟨h1, h2⟩ := ih h hqid' (hfresh' _) hnd'
        rw [h1]
        simp only [List.map_append, List.map_cons, List.length_cons]
        refine ⟨by simp, by omega⟩
      · rename_i c1 out hok
        split at h <;>
        · rw [hds _] at h
          obtain ⟨h1, h2⟩ := ih h hqid' (hfresh' _) hnd'
          rw [h1]
          simp only [List.map_append, List.map_cons, List.length_cons]
          refine ⟨by simp, by omega⟩

lemma batchLoop_failFast {E : Engine σ} :
    ∀ {qs : List Query} {c c' : Conn σ}
      {res res' : List (String × QEntry)} {s f s' f' : Nat},
    batchLoop E true qs c res s f = .ok (c', res', s', f') →
    (∀ q ∈ qs, strTruthy q.query_id? = some (qidD q)) →
    (∀ q ∈ qs, ∀ p ∈ res, p.1 ≠ qidD q) →
    (qs.map qidD).Nodup →
    ∃ k, k ≤ qs.length ∧
      res'.map Prod.fst = res.map Prod.fst ++ (qs.take k).map qidD ∧
      s' + f' = s + f + k ∧ f' ≤ f + 1 ∧ f ≤ f' ∧
      (f' = f → k = qs.length) := by
  intro qs
  induction qs with
  | nil =>
    intro c c' res res' s f s' f' h hqid hfresh hnd
    simp only [batchLoop, Except.ok.injEq, Prod.mk.injEq] at h
    obtain ⟨-, h2, h3, h4⟩ := h
    subst h2; subst h3; subst h4
    exact ⟨0, by simp, by simp, by omega, by omega, by omega, fun _ => rfl⟩
  | cons q qs ih =>
    intro c c' res res' s f s' f' h hqid hfresh hnd
    have hq : strTruthy q.query_id? = some (qidD q) := hqid q (by simp)
    simp only [batchLoop, hq, eq_self_iff_true, if_true] at h
    have hds : ∀ v, dictSet res (qidD q) v = res ++ [(qidD q, v)] :=
      fun v => dictSet_append (fun p hp => hfresh q (by simp) p hp)
    have hfresh' : ∀ v, ∀ q' ∈ qs, ∀ p ∈ res ++ [(qidD q, v)],
        p.1 ≠ qidD q' := by
      intro v q' hq' p hp
      rw [List.mem_append] at hp
      rcases hp with hp | hp
      · exact hfresh q' (by simp [hq']) p hp
      · rw [List.mem_singleton] at hp
        subst hp
        simp only [List.map_cons, List.nodup_cons, List.mem_map] at hnd
        exact fun hcontra => hnd.1 ⟨q', hq', hcontra.symm⟩
    have hqid' : ∀ q' ∈ qs, strTruthy q'.query_id? = some (qidD q') :=
      fun q' hq' => hqid q' (by simp [hq'])
    have hnd' : (qs.map qidD).Nodup := by
      simp only [List.map_cons, List.nodup_cons] at hnd
      exact hnd.2
    split at h
    · simp only [Except.ok.injEq, Prod.mk.injEq] at h
      obtain ⟨-, h2, h3, h4⟩ := h
      subst h2; subst h3; subst h4
      refine ⟨1, by simp only [List.length_cons]; omega, ?_, by omega,
        by omega, by omega, by omega⟩
      rw [hds _]
      simp
    · rename_i sql hsql
      split at h
      · simp only [Except.ok.injEq, Prod.mk.injEq] at h
        obtain ⟨-, h2, h3, h4⟩ := h
        subst h2; subst h3; subst h4
        refine ⟨1, by simp only [List.length_cons]; omega, ?_, by omega,
          by omega, by omega, by omega⟩
        rw [hds _]
        simp
      · rename_i c1 out hok
        split at h <;>
        · rw [hds _] at h
          obtain ⟨k, hk1, hk2, hk3, hk4, hk5, hk6⟩ := ih h hqid' (hfresh' _)
            hnd'
          refine ⟨k + 1, by simpa using hk1, ?_, by omega, by omega, by omega,
            ?_⟩
          · rw [hk2]
            simp only [List.take_succ_cons, List.map_append, List.map_cons]
            simp
          · intro hf
            have := hk6 hf
            simp [this]

/-- C8.  For uniquely-identified queries: with `fail_fast = false` every
query contributes exactly one entry to `results` keyed by its `query_id`
in input order (so N queries yield N entries), `successful + failed = N`,
and the top-level status is `"partial_success"` whenever
`0 < successful < N`; with `fail_fast = true` the returned `results` cover
exactly an input prefix, contain at most one failure, and only a failure
stops iteration early; and an exception raised by one query is caught and
stored under that query's id as a failure entry carrying the error
message — iteration then continues with the remaining queries
(`fail_fast = false`) or stops immediately (`fail_fast = true`). -/
theorem execute_batch_queries_isolation {σ : Type} (E : Engine σ)
    (fs : List String) (store : String → σ) (dbName : String)
    (queries : List Query)
    (hqid : ∀ q ∈ queries, strTruthy q.query_id? = some (qidD q))
    (hnd : (queries.map qidD).Nodup) :
    (∀ {res : BatchResult} {c : Conn σ},
      execute_batch_queries E fs store dbName queries false = .ok (res, c) →
      res.results.length = queries.length ∧
      res.results.map Prod.fst = queries.map qidD ∧
      res.successful_queries + res.failed_queries = queries.length ∧
      (0 < res.successful_queries → res.successful_queries < queries.length →
        res.status = "partial_success")) ∧
    (∀ {res : BatchResult} {c : Conn σ},
      execute_batch_queries E fs store dbName queries true = .ok (res, c) →
      ∃ k, k ≤ queries.length ∧
        res.results.map Prod.fst = (queries.take k).map qidD ∧
        res.successful_queries + res.failed_queries = k ∧
        res.failed_queries ≤ 1 ∧
        (res.failed_queries = 0 → k = queries.length)) ∧
    (∀ (q : Query) (qs' : List Query) (c0 : Conn σ)
       (res0 : List (String × QEntry)) (s0 f0 : Nat) (qid sql e : String),
       strTruthy q.query_id? = some qid → strTruthy q.sql? = some sql →
       Conn.execStmt E c0 sql q.params = .error e →
       batchLoop E false (q :: qs') c0 res0 s0 f0 =
         batchLoop E false qs' c0
           (dictSet res0 qid ⟨"failed", none, some e⟩) s0 (f0 + 1) ∧
       batchLoop E true (q :: qs') c0 res0 s0 f0 =
         .ok (c0, dictSet res0 qid ⟨"failed", none, some e⟩, s0, f0 + 1)) := by
  refine ⟨?_, ?_, ?_⟩
  · intro res c h
    simp only [execute_batch_queries] at h
    by_cases hfs : ¬ fs.contains (getDbPath dbName) = true
    · rw [if_pos hfs] at h
      exact absurd h (by simp)
    · rw [if_neg hfs] at h
      by_cases hemp : queries.isEmpty = true
      · rw [if_pos hemp] at h
        exact absurd h (by simp)
      · rw [if_neg hemp] at h
        rcases hbl : batchLoop E false queries
            ⟨store (getDbPath dbName), none, []⟩ [] 0 0 with e | ⟨c1, r1, s1, f1⟩
        · rw [hbl] at h
          exact absurd h (by simp)
        · rw [hbl] at h
          simp only [Except.ok.injEq, Prod.mk.injEq] at h
          obtain ⟨hres, -⟩ := h
          obtain ⟨g1, g2⟩ := batchLoop_noFailFast hbl hqid
            (by intro q hq p hp; simp at hp) hnd
          subst hres
          refine ⟨?_, by simpa using g1, by simpa using g2, ?_⟩
          · have := congrArg List.length g1
            simpa using this
          · intro hpos hlt
            have hpos' : 0 < s1 := hpos
            have hlt' : s1 < queries.length := hlt
            simp only
            rw [if_neg (by omega), if_pos (by omega)]
  · intro res c h
    simp only [execute_batch_queries] at h
    by_cases hfs : ¬ fs.contains (getDbPath dbName) = true
    · rw [if_pos hfs] at h
      exact absurd h (by simp)
    · rw [if_neg hfs] at h
      by_cases hemp : queries.isEmpty = true
      · rw [if_pos hemp] at h
        exact absurd h (by simp)
      · rw [if_neg hemp] at h
        rcases hbl : batchLoop E true queries
            ⟨store (getDbPath dbName), none, []⟩ [] 0 0 with e | ⟨c1, r1, s1, f1⟩
        · rw [hbl] at h
          exact absurd h (by simp)
        · rw [hbl] at h
          simp only [Except.ok.injEq, Prod.mk.injEq] at h
          obtain ⟨hres, -⟩ := h
          obtain ⟨k, g1, g2, g3, g4, g5, g6⟩ := batchLoop_failFast hbl hqid
            (by intro q hq p hp; simp at hp) hnd
          subst hres
          refine ⟨k, g1, by simpa using g2, by simpa using g3, ?_,
            fun hf => g6 (by simpa using hf)⟩
          have g4' : f1 ≤ 0 + 1 := g4
          simp only
          omega
  · intro q qs' c0 res0 s0 f0 qid sql e hq hsql hex
    constructor
    · simp only [batchLoop, hq, hsql, hex, Bool.false_eq_true, if_false]
    · simp only [batchLoop, hq, hsql, hex, eq_self_iff_true, if_true]

/-- C8 witness queries: an insert that succeeds, a query that raises, a
read that succeeds. -/
def wq1 : Query := ⟨some "q1", some "INSERT INTO t VALUES (?)", [1]⟩

/-- The failing witness query. -/
def wq2 : Query := ⟨some "q2", some "FAIL x", []⟩

/-- The final witness query. -/
def wq3 : Query := ⟨some "q3", some "SELECT 1", []⟩

/-- Witness for C8: three queries with the middle one failing give, with
`fail_fast = false`, three in-order entries and status
`"partial_success"`; with `fail_fast = true`, only the first two entries. -/
theorem execute_batch_queries_isolation_witness :
    (∃ res c, execute_batch_queries toyEngine fsW storeW "db" [wq1, wq2, wq3]
        false = .ok (res, c) ∧ res.results.length = 3 ∧
      res.results.map Prod.fst = ["q1", "q2", "q3"] ∧
      res.status = "partial_success") ∧
    (∃ res c, execute_batch_queries toyEngine fsW storeW "db" [wq1, wq2, wq3]
        true = .ok (res, c) ∧
      res.results.map Prod.fst = ["q1", "q2"]) := by
  obtain ⟨hff, hft, -⟩ := execute_batch_queries_isolation toyEngine fsW
    storeW "db" [wq1, wq2, wq3] (by decide) (by decide)
  constructor
  · obtain ⟨x, hx⟩ : ∃ x, execute_batch_queries toyEngine fsW storeW "db"
        [wq1, wq2, wq3] false = .ok x := ⟨_, rfl⟩
    obtain ⟨g1, g2, -, -⟩ := hff hx
    have hstat : (execute_batch_queries toyEngine fsW storeW "db"
        [wq1, wq2, wq3] false).map (fun p => p.1.status)
        = .ok "partial_success" := rfl
    rw [hx] at hstat
    simp only [Except.map, Except.ok.injEq] at hstat
    exact ⟨x.1, x.2, hx, by rw [g1]; rfl, by rw [g2]; rfl, hstat⟩
  · obtain ⟨x, hx⟩ : ∃ x, execute_batch_queries toyEngine fsW storeW "db"
        [wq1, wq2, wq3] true = .ok x := ⟨_, rfl⟩
    obtain ⟨k, -, g2, g3, g4, -⟩ := hft hx
    have hcnt : (execute_batch_queries toyEngine fsW storeW "db"
        [wq1, wq2, wq3] true).map (fun p => (p.1.successful_queries,
          p.1.failed_queries)) = .ok (1, 1) := rfl
    rw [hx] at hcnt
    simp only [Except.map, Except.ok.injEq, Prod.mk.injEq] at hcnt
    have hk : k = 2 := by omega
    subst hk
    exact ⟨x.1, x.2, hx, by rw [g2]; rfl⟩
